import Mathlib

/-!
# Verification of the rusagent multi-agent coordination runtime

A shallow embedding of the coordination substrate of the `rusagent`
repository: the priority task queue (`src/multi_agent/coordination/task_queue.rs`),
the message bus (`src/multi_agent/communication/message_bus.rs` and `message.rs`),
the agent registry (`src/multi_agent/registry/agent_registry.rs`),
the shared memory pool (`src/shared/memory_pool.rs`) and the single-agent
plan-execution loop (`src/agent/core/agent.rs` with `src/agent/state/mod.rs`).

Conventions used throughout:
* `std::collections::HashMap` is modelled as an association list with unique
  keys; `insert` replaces the binding in place when the key is present and
  appends otherwise, `remove` deletes the first binding with the key.
* `chrono::DateTime<Utc>` instants are modelled as `Int`; the current instant
  `Utc::now()` becomes an explicit `now : Int` argument of every operation
  that reads the clock.
* `serde_json::Value` payloads and metadata are behaviourally opaque in all
  verified code paths and are modelled as `String`.
* `u64` statistics counters only ever increase by one per operation; they are
  modelled as `Nat` (no claim under verification involves wrap-around).
* Async functions are pure state transformers: each `&self` method becomes a
  function from the receiver state to the updated state plus its return value.
-/

set_option maxRecDepth 8192

namespace Rusagent

/-! ## Association-list maps (model of `std::collections::HashMap`) -/

/-- Model of `HashMap::get`: the value bound to `key`, if any. -/
def lookupA {κ β : Type} [DecidableEq κ] : List (κ × β) → κ → Option β
  | [], _ => none
  | (k, v) :: rest, key => if k = key then some v else lookupA rest key

/-- Model of `HashMap::contains_key`. -/
def containsKeyA {κ β : Type} [DecidableEq κ] (l : List (κ × β)) (key : κ) : Bool :=
  (lookupA l key).isSome

/-- Model of `HashMap::insert`: replace the binding in place when present,
append otherwise. -/
def insertA {κ β : Type} [DecidableEq κ] : List (κ × β) → κ → β → List (κ × β)
  | [], key, v => [(key, v)]
  | (k, w) :: rest, key, v =>
      if k = key then (key, v) :: rest else (k, w) :: insertA rest key v

/-- Model of `HashMap::remove`: the removed value (if the key was bound)
together with the remaining map. -/
def removeA {κ β : Type} [DecidableEq κ] : List (κ × β) → κ → Option β × List (κ × β)
  | [], _ => (none, [])
  | (k, w) :: rest, key =>
      if k = key then (some w, rest)
      else
        let r := removeA rest key
        (r.1, (k, w) :: r.2)

/-! ## Core enumerations (`src/agent/types.rs`) -/

/-- `Priority` from `types.rs`. -/
inductive Priority
  | low
  | normal
  | high
  | critical
deriving DecidableEq

/-- `TaskType` from `types.rs`. -/
inductive TaskType
  | planning
  | execution
  | verification
  | analysis
  | monitoring
  | composite
deriving DecidableEq

/-- `TaskStatus` from `types.rs`. -/
inductive TaskStatus
  | pending
  | assigned (agentId : String)
  | inProgress
  | completed
  | failed (reason : String)
  | cancelled
deriving DecidableEq

/-- `AgentType` from `types.rs`. -/
inductive AgentType
  | master
  | planner
  | executor
  | verifier
  | monitor
  | custom (name : String)
deriving DecidableEq

/-- `AgentCapability` from `types.rs`. -/
inductive AgentCapability
  | taskPlanning
  | taskExecution
  | taskVerification
  | monitoring
  | coordination
  | toolCalling (toolName : String)
  | custom (name : String)
deriving DecidableEq

/-- `AgentStatus` from `types.rs`. -/
inductive AgentStatus
  | active
  | busy
  | idle
  | offline
  | failed
deriving DecidableEq

/-- `AccessLevel` from `types.rs`. -/
inductive AccessLevel
  | publicAccess
  | privateAccess
  | sharedAccess
deriving DecidableEq

/-- `AgentError` from `src/error/agent_error.rs` (the I/O, serde and
model-gateway wrappers never occur in the verified code paths). -/
inductive AgentError
  | executionError (detail : String)
  | verificationError (detail : String)
  | planExhausted
  | agentNotFound (id : String)
  | taskNotFound (id : String)
  | messageDeliveryError (detail : String)
  | resourceExhausted (detail : String)
  | parseError (detail : String)
  | internalError (detail : String)
deriving DecidableEq

/-- The `thiserror`-generated `Display` rendering of an `AgentError`,
used by `err.to_string()` in the plan-execution loop. -/
def AgentError.display : AgentError → String
  | .executionError d => "执行失败: " ++ d
  | .verificationError d => "验证失败: " ++ d
  | .planExhausted => "计划已耗尽"
  | .agentNotFound i => "Agent未找到: " ++ i
  | .taskNotFound i => "任务未找到: " ++ i
  | .messageDeliveryError d => "消息传递失败: " ++ d
  | .resourceExhausted d => "资源耗尽: " ++ d
  | .parseError d => "解析错误: " ++ d
  | .internalError d => "内部错误: " ++ d

/-! ## Task queue (`src/multi_agent/coordination/task_queue.rs`) -/

/-- `Task` from `task_queue.rs`. -/
structure Task where
  id : String
  task_type : TaskType
  priority : Priority
  status : TaskStatus
  payload : String
  dependencies : List String
  assigned_to : Option String
  created_by : String
  created_at : Int
  updated_at : Int
  deadline : Option Int
  metadata : String
deriving DecidableEq

/-- `Task::is_expired`: `Utc::now() > deadline` when a deadline is set. -/
def Task.is_expired (t : Task) (now : Int) : Bool :=
  match t.deadline with
  | some d => decide (d < now)
  | none => false

/-- `Task::update_status`: set the status and refresh `updated_at`. -/
def Task.update_status (t : Task) (status : TaskStatus) (now : Int) : Task :=
  { t with status := status, updated_at := now }

/-- `TaskQueue` state.  The source keeps `pending` as a
`HashMap<Priority, VecDeque<Task>>` that is created in `TaskQueue::new`
with exactly the four priority keys and never gains or loses a key, so the
map is modelled as four named bands. -/
structure TaskQueue where
  critical : List Task
  high : List Task
  normal : List Task
  low : List Task
  in_progress : List (String × Task)
  completed : List Task
  failed : List Task
  dependencies : List (String × List String)
deriving DecidableEq

/-- `TaskQueue::new`. -/
def TaskQueue.new : TaskQueue :=
  ⟨[], [], [], [], [], [], [], []⟩

/-- The pending band for a given priority. -/
def TaskQueue.band (q : TaskQueue) : Priority → List Task
  | .critical => q.critical
  | .high => q.high
  | .normal => q.normal
  | .low => q.low

/-- Replace the pending band for a given priority. -/
def TaskQueue.setBand (q : TaskQueue) : Priority → List Task → TaskQueue
  | .critical, l => { q with critical := l }
  | .high, l => { q with high := l }
  | .normal, l => { q with normal := l }
  | .low, l => { q with low := l }

/-- `TaskQueue::enqueue`: record the dependency list when non-empty and
`push_back` the task onto its priority band.  The source's
`get_mut(&task.priority)` cannot fail because all four bands exist, so the
`Result` is always `Ok` and the model is total. -/
def TaskQueue.enqueue (q : TaskQueue) (t : Task) : TaskQueue :=
  let q1 :=
    if t.dependencies.isEmpty then q
    else { q with dependencies := insertA q.dependencies t.id t.dependencies }
  q1.setBand t.priority (q1.band t.priority ++ [t])

/-- `TaskQueue::are_dependencies_satisfied`: every dependency id must be
absent from the in-progress map and present (by task id) in the completed
archive. -/
def are_dependencies_satisfied (t : Task) (in_progress : List (String × Task))
    (completed : List Task) : Bool :=
  if t.dependencies.isEmpty then true
  else t.dependencies.all fun dep =>
    !containsKeyA in_progress dep && completed.any fun c => c.id == dep

/-- The inner loop of `TaskQueue::dequeue` on one band: find the first task
whose dependencies are satisfied and remove it (the source locates the index
with an enumerated scan and calls `VecDeque::remove` on it). -/
def dequeueBand (elig : Task → Bool) : List Task → Option Task × List Task
  | [] => (none, [])
  | t :: rest =>
      if elig t then (some t, rest)
      else
        let r := dequeueBand elig rest
        (r.1, t :: r.2)

/-- `TaskQueue::dequeue`: scan the bands in the order
Critical, High, Normal, Low; within a band, scan front to back; remove and
return the first task whose dependencies are satisfied. -/
def TaskQueue.dequeue (q : TaskQueue) : Option Task × TaskQueue :=
  let elig := fun t => are_dependencies_satisfied t q.in_progress q.completed
  match dequeueBand elig q.critical with
  | (some t, rest) => (some t, { q with critical := rest })
  | (none, _) =>
    match dequeueBand elig q.high with
    | (some t, rest) => (some t, { q with high := rest })
    | (none, _) =>
      match dequeueBand elig q.normal with
      | (some t, rest) => (some t, { q with normal := rest })
      | (none, _) =>
        match dequeueBand elig q.low with
        | (some t, rest) => (some t, { q with low := rest })
        | (none, _) => (none, q)

/-- `TaskQueue::mark_in_progress`: set the task's status to `InProgress` and
insert it into the in-progress map under its id (the source's `Result` is
always `Ok`). -/
def TaskQueue.mark_in_progress (q : TaskQueue) (t : Task) (now : Int) : TaskQueue :=
  let t' := t.update_status .inProgress now
  { q with in_progress := insertA q.in_progress t'.id t' }

/-- `TaskQueue::mark_completed`: move the task out of the in-progress map
into the completed archive and clear its recorded dependencies; error with
`TaskNotFound` when the id is not in progress. -/
def TaskQueue.mark_completed (q : TaskQueue) (task_id : String) (now : Int) :
    Except AgentError TaskQueue :=
  match removeA q.in_progress task_id with
  | (some t, rest) =>
      let t' := t.update_status .completed now
      .ok { q with
              in_progress := rest,
              completed := q.completed ++ [t'],
              dependencies := (removeA q.dependencies task_id).2 }
  | (none, _) => .error (.taskNotFound task_id)

/-- `TaskQueue::mark_failed`: move the task out of the in-progress map into
the failed archive; error with `TaskNotFound` when the id is not in
progress. -/
def TaskQueue.mark_failed (q : TaskQueue) (task_id : String) (reason : String) (now : Int) :
    Except AgentError TaskQueue :=
  match removeA q.in_progress task_id with
  | (some t, rest) =>
      let t' := t.update_status (.failed reason) now
      .ok { q with in_progress := rest, failed := q.failed ++ [t'] }
  | (none, _) => .error (.taskNotFound task_id)

/-- `TaskQueue::size`: the source returns `0` unconditionally (its comment
calls it a simplified placeholder). -/
def TaskQueue.size (_ : TaskQueue) : Nat :=
  0

/-- `TaskQueueStats` from `task_queue.rs`. -/
structure TaskQueueStats where
  pending : Nat
  in_progress : Nat
  completed : Nat
  failed : Nat
deriving DecidableEq

/-- `TaskQueue::get_stats`: the pending count is the sum of the band
lengths. -/
def TaskQueue.get_stats (q : TaskQueue) : TaskQueueStats :=
  { pending := q.critical.length + q.high.length + q.normal.length + q.low.length,
    in_progress := q.in_progress.length,
    completed := q.completed.length,
    failed := q.failed.length }

/-- `TaskQueue::cleanup_expired`: drop every expired task from every pending
band and return how many were dropped. -/
def TaskQueue.cleanup_expired (q : TaskQueue) (now : Int) : Nat × TaskQueue :=
  let gone := fun l : List Task => (l.filter fun t => t.is_expired now).length
  let keep := fun l : List Task => l.filter fun t => !t.is_expired now
  (gone q.critical + gone q.high + gone q.normal + gone q.low,
   { q with critical := keep q.critical, high := keep q.high,
            normal := keep q.normal, low := keep q.low })

/-- All pending tasks in dispatch-scan order (Critical, High, Normal, Low;
FIFO within a band). -/
def TaskQueue.pendingAll (q : TaskQueue) : List Task :=
  q.critical ++ q.high ++ q.normal ++ q.low

/-- Every task id recorded anywhere in the queue: pending bands, in-progress
map keys, completed archive, failed archive. -/
def TaskQueue.allIds (q : TaskQueue) : List String :=
  q.pendingAll.map Task.id ++ q.in_progress.map Prod.fst
    ++ q.completed.map Task.id ++ q.failed.map Task.id

/-- Every in-progress binding keys the task by its own id (maintained by
`mark_in_progress`, which inserts under `task.id`). -/
def TaskQueue.KeysMatch (q : TaskQueue) : Prop :=
  ∀ p ∈ q.in_progress, p.1 = p.2.id

/-- The one-collection invariant: no task id occurs twice across the pending
bands, the in-progress map, the completed archive and the failed archive. -/
def TaskQueue.Inv (q : TaskQueue) : Prop :=
  q.allIds.Nodup ∧ q.KeysMatch

instance (q : TaskQueue) : Decidable q.KeysMatch :=
  List.decidableBAll _ _

instance (q : TaskQueue) : Decidable q.Inv :=
  inferInstanceAs (Decidable (_ ∧ _))

/-- The queue operations quantified over by the one-collection claim, in the
disciplined workflow: a dequeued task is immediately marked in progress. -/
inductive QueueOp
  | enqueueOp (t : Task)
  | dequeueMark (now : Int)
  | completeOp (task_id : String) (now : Int)
  | failOp (task_id : String) (reason : String) (now : Int)
  | cleanupOp (now : Int)

/-- Apply one queue operation; operations that return an error leave the
queue unchanged. -/
def applyOp (q : TaskQueue) : QueueOp → TaskQueue
  | .enqueueOp t => q.enqueue t
  | .dequeueMark now =>
      match q.dequeue with
      | (some t, q') => q'.mark_in_progress t now
      | (none, _) => q
  | .completeOp tid now =>
      match q.mark_completed tid now with
      | .ok q' => q'
      | .error _ => q
  | .failOp tid reason now =>
      match q.mark_failed tid reason now with
      | .ok q' => q'
      | .error _ => q
  | .cleanupOp now => (q.cleanup_expired now).2

/-- Side condition on a single operation: an enqueued task carries an id not
already present in the queue. -/
def validOp (q : TaskQueue) : QueueOp → Prop
  | .enqueueOp t => t.id ∉ q.allIds
  | _ => True

/-- `ValidSeq q ops`: every enqueue along the run of `ops` from `q` uses a
fresh id. -/
def ValidSeq : TaskQueue → List QueueOp → Prop
  | _, [] => True
  | q, op :: ops => validOp q op ∧ ValidSeq (applyOp q op) ops

instance instDecidableValidOp (q : TaskQueue) (op : QueueOp) : Decidable (validOp q op) :=
  match op with
  | .enqueueOp t => inferInstanceAs (Decidable (t.id ∉ q.allIds))
  | .dequeueMark _ => inferInstanceAs (Decidable True)
  | .completeOp _ _ => inferInstanceAs (Decidable True)
  | .failOp _ _ _ => inferInstanceAs (Decidable True)
  | .cleanupOp _ => inferInstanceAs (Decidable True)

instance instDecidableValidSeq : (q : TaskQueue) → (ops : List QueueOp) → Decidable (ValidSeq q ops)
  | _, [] => inferInstanceAs (Decidable True)
  | q, op :: ops =>
      haveI := instDecidableValidSeq (applyOp q op) ops
      inferInstanceAs (Decidable (_ ∧ _))

/-! ## Messages (`src/multi_agent/communication/message.rs`) -/

/-- `ControlCommand` from `message.rs`. -/
inductive ControlCommand
  | start
  | stop
  | pause
  | resume
  | shutdown
deriving DecidableEq

/-- `MessageType` from `message.rs`. -/
inductive MessageType
  | taskAssignment
  | statusUpdate
  | resultNotification
  | resourceRequest
  | resourceResponse
  | heartbeat
  | errorReport
  | control (cmd : ControlCommand)
  | custom (tag : String)
deriving DecidableEq

/-- `MessagePriority` from `message.rs`. -/
inductive MessagePriority
  | low
  | normal
  | high
  | urgent
deriving DecidableEq

/-- `Message` from `message.rs`. -/
structure Message where
  id : String
  sender_id : String
  receiver_id : Option String
  message_type : MessageType
  priority : MessagePriority
  payload : String
  timestamp : Int
  correlation_id : Option String
  expires_at : Option Int
deriving DecidableEq

/-- `Message::is_expired`: `Utc::now() > expires_at` when an expiry is set. -/
def Message.is_expired (m : Message) (now : Int) : Bool :=
  match m.expires_at with
  | some t => decide (t < now)
  | none => false

/-- `Message::is_broadcast`: no receiver means broadcast. -/
def Message.is_broadcast (m : Message) : Bool :=
  m.receiver_id.isNone

/-! ## Message bus (`src/multi_agent/communication/message_bus.rs`) -/

/-- `MessageBusConfig` from `message_bus.rs`. -/
structure MessageBusConfig where
  broadcast_capacity : Nat
  p2p_capacity : Nat
  history_size : Nat
  enable_persistence : Bool
deriving DecidableEq

/-- One end of a bounded `tokio::sync::mpsc` channel as seen by the bus: the
queued messages and whether the receiving half has been dropped. -/
structure Inbox where
  queue : List Message
  closed : Bool
deriving DecidableEq

/-- `MessageBusStats` from `message_bus.rs`. -/
structure MessageBusStats where
  total_messages : Nat
  broadcast_messages : Nat
  p2p_messages : Nat
  failed_deliveries : Nat
  expired_messages : Nat
deriving DecidableEq

/-- `MessageBus` state.  `broadcast_subscribers` is the receiver count of the
`tokio::sync::broadcast` channel (a broadcast send fails exactly when it is
zero); the per-subscriber broadcast queues live with each receiver. -/
structure MessageBus where
  p2p_channels : List (String × Inbox)
  message_history : List Message
  config : MessageBusConfig
  stats : MessageBusStats
  broadcast_subscribers : Nat
deriving DecidableEq

/-- `MessageReceiver` from `message_bus.rs`: the agent id plus the receiving
ends of the point-to-point and broadcast channels (each modelled as the queue
of not-yet-received messages). -/
structure MessageReceiver where
  agent_id : String
  p2p_rx : List Message
  broadcast_rx : List Message
deriving DecidableEq

/-- The outcome of an async send as observed by a caller: returned `Ok`,
returned `Err`, or still suspended awaiting inbox capacity.  A bounded
`tokio::sync::mpsc::Sender::send(..).await` on a full channel waits until
space is available and only returns an error when the receiving half has
been dropped, so a send to a full open inbox yields `blocked` carrying the
bus state at the suspension point. -/
inductive SendOutcome
  | ok (bus : MessageBus)
  | err (bus : MessageBus) (e : AgentError)
  | blocked (bus : MessageBus)
deriving DecidableEq

/-- The bus state carried by a send outcome. -/
def SendOutcome.bus : SendOutcome → MessageBus
  | .ok b => b
  | .err b _ => b
  | .blocked b => b

/-- `stats.expired_messages += 1`. -/
def MessageBus.bumpExpired (bus : MessageBus) : MessageBus :=
  { bus with stats := { bus.stats with expired_messages := bus.stats.expired_messages + 1 } }

/-- `stats.total_messages += 1`. -/
def MessageBus.bumpTotal (bus : MessageBus) : MessageBus :=
  { bus with stats := { bus.stats with total_messages := bus.stats.total_messages + 1 } }

/-- `stats.broadcast_messages += 1`. -/
def MessageBus.bumpBroadcast (bus : MessageBus) : MessageBus :=
  { bus with stats := { bus.stats with broadcast_messages := bus.stats.broadcast_messages + 1 } }

/-- `stats.p2p_messages += 1`. -/
def MessageBus.bumpP2P (bus : MessageBus) : MessageBus :=
  { bus with stats := { bus.stats with p2p_messages := bus.stats.p2p_messages + 1 } }

/-- `stats.failed_deliveries += 1`. -/
def MessageBus.bumpFailed (bus : MessageBus) : MessageBus :=
  { bus with stats := { bus.stats with failed_deliveries := bus.stats.failed_deliveries + 1 } }

/-- `MessageBus::save_to_history`: evict the oldest entry once the ring is
full, then append. -/
def MessageBus.save_to_history (bus : MessageBus) (m : Message) : MessageBus :=
  let h :=
    if bus.config.history_size ≤ bus.message_history.length then bus.message_history.drop 1
    else bus.message_history
  { bus with message_history := h ++ [m] }

/-- `MessageBus::register_agent`: unconditionally insert a fresh empty
point-to-point inbox under the agent id (replacing any existing binding),
subscribe to the broadcast channel, and return the receiver.  The source
never checks for an existing registration and always returns `Ok`. -/
def MessageBus.register_agent (bus : MessageBus) (agent_id : String) :
    Except AgentError (MessageBus × MessageReceiver) :=
  .ok ({ bus with
           p2p_channels := insertA bus.p2p_channels agent_id ⟨[], false⟩,
           broadcast_subscribers := bus.broadcast_subscribers + 1 },
       ⟨agent_id, [], []⟩)

/-- `MessageBus::broadcast`: count the broadcast, fail when the broadcast
channel has no subscribers, succeed otherwise (per-subscriber queues live
with the receivers). -/
def MessageBus.broadcast (bus : MessageBus) (_m : Message) : SendOutcome :=
  let bus1 := bus.bumpBroadcast
  if bus1.broadcast_subscribers = 0 then
    .err bus1.bumpFailed (.messageDeliveryError "No receivers for broadcast")
  else
    .ok bus1

/-- `MessageBus::send_p2p`: count the p2p send, look up the receiver's inbox
and `tx.send(message).await` into it.  A missing receiver id or an unknown
agent returns an error; a dropped receiver makes the channel send fail; a
full open inbox suspends (see `SendOutcome.blocked`). -/
def MessageBus.send_p2p (bus : MessageBus) (m : Message) : SendOutcome :=
  match m.receiver_id with
  | none => .err bus (.messageDeliveryError "No receiver specified")
  | some rid =>
    let bus1 := bus.bumpP2P
    match lookupA bus1.p2p_channels rid with
    | some inbox =>
        if inbox.closed then
          .err bus1.bumpFailed (.messageDeliveryError ("Failed to send to " ++ rid))
        else if bus1.config.p2p_capacity ≤ inbox.queue.length then
          .blocked bus1
        else
          .ok { bus1 with
                  p2p_channels :=
                    insertA bus1.p2p_channels rid { inbox with queue := inbox.queue ++ [m] } }
    | none => .err bus1.bumpFailed (.messageDeliveryError ("Agent " ++ rid ++ " not found"))

/-- `MessageBus::send`: reject already-expired messages (counted as expired,
not recorded in history), otherwise count the message, append it to the
history ring and route it by `receiver_id`. -/
def MessageBus.send (bus : MessageBus) (now : Int) (m : Message) : SendOutcome :=
  if m.is_expired now then
    .err bus.bumpExpired (.messageDeliveryError "Message expired")
  else
    let bus2 := (bus.bumpTotal).save_to_history m
    if m.is_broadcast then bus2.broadcast m else bus2.send_p2p m

/-- The broadcast arm of `MessageReceiver::recv`: pop broadcast messages,
skipping (and consuming) those authored by the receiving agent itself; the
source implements the skip by recursing into `recv`, which with an empty
point-to-point queue reduces to this loop. -/
def recvBroadcastLoop (agent_id : String) : List Message → Option Message × List Message
  | [] => (none, [])
  | m :: rest =>
      if m.sender_id = agent_id then recvBroadcastLoop agent_id rest
      else (some m, rest)

/-- `MessageReceiver::recv`: prefer the point-to-point queue, then take the
next broadcast message not authored by this agent. -/
def MessageReceiver.recv (r : MessageReceiver) : Option Message × MessageReceiver :=
  match r.p2p_rx with
  | m :: rest => (some m, { r with p2p_rx := rest })
  | [] =>
      let b := recvBroadcastLoop r.agent_id r.broadcast_rx
      (b.1, { r with broadcast_rx := b.2 })

/-- `MessageReceiver::try_recv`: try the point-to-point queue, then consume
one broadcast message, yielding it only when it was authored by another
agent (a self-authored broadcast is consumed and `none` is returned). -/
def MessageReceiver.try_recv (r : MessageReceiver) : Option Message × MessageReceiver :=
  match r.p2p_rx with
  | m :: rest => (some m, { r with p2p_rx := rest })
  | [] =>
      match r.broadcast_rx with
      | m :: rest =>
          if m.sender_id ≠ r.agent_id then (some m, { r with broadcast_rx := rest })
          else (none, { r with broadcast_rx := rest })
      | [] => (none, r)

/-! ## Agent registry (`src/multi_agent/registry/agent_registry.rs`) -/

/-- `AgentInfo` from `agent_registry.rs`. -/
structure AgentInfo where
  id : String
  agent_type : AgentType
  capabilities : List AgentCapability
  status : AgentStatus
  last_heartbeat : Int
  metadata : String
deriving DecidableEq

/-- `AgentRegistry` state: the primary row map plus the two secondary
indices. -/
structure AgentRegistry where
  agents : List (String × AgentInfo)
  capability_index : List (AgentCapability × List String)
  type_index : List (AgentType × List String)
deriving DecidableEq

/-- `AgentRegistry::update_status`: overwrite only the `status` field of the
row; error with `AgentNotFound` when the id has no row.  Neither
`last_heartbeat` nor the secondary indices are touched. -/
def AgentRegistry.update_status (reg : AgentRegistry) (agent_id : String)
    (status : AgentStatus) : Except AgentError AgentRegistry :=
  match lookupA reg.agents agent_id with
  | none => .error (.agentNotFound agent_id)
  | some info =>
      .ok { reg with agents := insertA reg.agents agent_id { info with status := status } }

/-- `AgentRegistry::heartbeat`: refresh only `last_heartbeat`; error with
`AgentNotFound` when the id has no row. -/
def AgentRegistry.heartbeat (reg : AgentRegistry) (agent_id : String) (now : Int) :
    Except AgentError AgentRegistry :=
  match lookupA reg.agents agent_id with
  | none => .error (.agentNotFound agent_id)
  | some info =>
      .ok { reg with agents := insertA reg.agents agent_id { info with last_heartbeat := now } }

/-! ## Shared memory pool (`src/shared/memory_pool.rs`) -/

/-- `MemoryEntry` from `memory_pool.rs`. -/
structure MemoryEntry where
  key : String
  value : String
  created_by : String
  created_at : Int
  updated_at : Int
  access_level : AccessLevel
  ttl : Option Int
  metadata : String
deriving DecidableEq

/-- `MemoryPoolConfig` from `memory_pool.rs`. -/
structure MemoryPoolConfig where
  max_global_entries : Nat
  max_agent_entries : Nat
  enable_ttl : Bool
  cleanup_interval_secs : Nat
deriving DecidableEq

/-- `MemoryPool` state: the global tier and the per-agent tiers. -/
structure MemoryPool where
  global_memory : List (String × MemoryEntry)
  agent_memory : List (String × List (String × MemoryEntry))
  config : MemoryPoolConfig
deriving DecidableEq

/-- The entries of an agent's tier; an agent with no inner map has no
entries. -/
def MemoryPool.agentEntries (pool : MemoryPool) (agent_id : String) :
    List (String × MemoryEntry) :=
  (lookupA pool.agent_memory agent_id).getD []

/-- `MemoryPool::set_global`: reject a new key once the global tier holds
`max_global_entries` entries; otherwise insert (replacing any entry with the
same key).  Returned as result plus post-state. -/
def MemoryPool.set_global (pool : MemoryPool) (entry : MemoryEntry) :
    Except AgentError Unit × MemoryPool :=
  if pool.config.max_global_entries ≤ pool.global_memory.length
      ∧ containsKeyA pool.global_memory entry.key = false then
    (.error (.resourceExhausted "Global memory pool is full"), pool)
  else
    (.ok (), { pool with global_memory := insertA pool.global_memory entry.key entry })

/-- `MemoryPool::set_agent`: `entry(agent_id).or_insert_with(HashMap::new)`
first materialises an empty inner map for an unknown agent, then the
capacity check rejects a new key once the agent's tier holds
`max_agent_entries` entries; otherwise insert. -/
def MemoryPool.set_agent (pool : MemoryPool) (agent_id : String) (entry : MemoryEntry) :
    Except AgentError Unit × MemoryPool :=
  let outer :=
    if containsKeyA pool.agent_memory agent_id then pool.agent_memory
    else pool.agent_memory ++ [(agent_id, [])]
  let memories := (lookupA outer agent_id).getD []
  if pool.config.max_agent_entries ≤ memories.length
      ∧ containsKeyA memories entry.key = false then
    (.error (.resourceExhausted ("Agent " ++ agent_id ++ " memory is full")),
     { pool with agent_memory := outer })
  else
    (.ok (),
     { pool with agent_memory := insertA outer agent_id (insertA memories entry.key entry) })

/-! ## Plan execution loop (`src/agent/core/agent.rs`, `src/agent/state/mod.rs`,
`src/agent/planning/step.rs`, `src/agent/plan/mod.rs`) -/

/-- `StepStatus` from `types.rs`. -/
inductive StepStatus
  | pending
  | executing
  | done
  | failed
deriving DecidableEq

/-- `StepResult` from `types.rs`. -/
structure StepResult where
  output : String
  success : Bool
deriving DecidableEq

/-- `AgentStep` from `planning/step.rs`. -/
structure AgentStep where
  step_id : Nat
  description : String
  status : StepStatus
  action : String
  tool : Option String
  parameters : Option String
  input : Option String
  output : Option String
  is_succeeded : Bool
  error_code : Option String
  error_reason : Option String
deriving DecidableEq

/-- `AgentPlan` from `plan/mod.rs`. -/
structure AgentPlan where
  plan_id : String
  description : Option String
  version : Option String
  steps : List AgentStep
  is_succeeded : Bool
  error_step_id : Option Nat
deriving DecidableEq

/-- `AgentState` from `state/mod.rs`: both maps are keyed by the decimal
rendering of the step id, exactly as `step_id.to_string()` in the source. -/
structure AgentState where
  step_status : List (String × StepStatus)
  step_results : List (String × StepResult)
deriving DecidableEq

/-- `AgentState::set_step_status`. -/
def AgentState.set_step_status (st : AgentState) (step_id : Nat) (s : StepStatus) : AgentState :=
  { st with step_status := insertA st.step_status (toString step_id) s }

/-- `AgentState::append_result`. -/
def AgentState.append_result (st : AgentState) (step_id : Nat) (r : StepResult) : AgentState :=
  { st with step_results := insertA st.step_results (toString step_id) r }

/-- `AgentState::get_step_status`. -/
def AgentState.get_step_status (st : AgentState) (step_id : Nat) : Option StepStatus :=
  lookupA st.step_status (toString step_id)

/-- The selection predicate of `Agent::run_loop`: a step is runnable when its
recorded status is `Pending` or absent from the state map. -/
def selectableB (st : AgentState) (s : AgentStep) : Bool :=
  match st.get_step_status s.step_id with
  | some .pending => true
  | none => true
  | _ => false

/-- Step selection in `Agent::run_loop`: the first runnable step of the
plan, in plan order. -/
def findPending (st : AgentState) (steps : List AgentStep) : Option AgentStep :=
  steps.find? (selectableB st)

/-- The temporary step object `Agent::run_loop` hands to the executor:
the selected step's identifying fields with status `Executing` and cleared
outcome fields. -/
def mkTempStep (s : AgentStep) : AgentStep :=
  { s with status := .executing, output := none, is_succeeded := false,
           error_code := none, error_reason := none }

/-- `iter_mut().find(..)` followed by a mutation: rewrite only the first list
element satisfying the predicate. -/
def updateFirst {α : Type} (p : α → Bool) (f : α → α) : List α → List α
  | [] => []
  | x :: xs => if p x then f x :: xs else x :: updateFirst p f xs

/-- The success-path plan update of `Agent::run_loop`: the first plan step
with the executed id becomes `Done` and succeeded. -/
def updatePlanDone (plan : AgentPlan) (step_id : Nat) : AgentPlan :=
  { plan with
      steps := updateFirst (fun s => s.step_id == step_id)
        (fun s => { s with status := .done, is_succeeded := true }) plan.steps }

/-- The failure-path plan update of `Agent::run_loop`: the first plan step
with the executed id becomes `Failed` and records the diagnostic. -/
def updatePlanFailed (plan : AgentPlan) (step_id : Nat) (msg : String) : AgentPlan :=
  { plan with
      steps := updateFirst (fun s => s.step_id == step_id)
        (fun s => { s with status := .failed, error_reason := some msg }) plan.steps }

/-- `Agent::run_loop`, with the executor abstracted as a function from the
temporary step to its result (the source's `Executor::execute` performs tool
and console I/O).  The loop is fuel-indexed; each successful iteration
strictly decreases the number of runnable steps, so any fuel of at least
`pendingCount` reaches a loop exit (proved below). -/
def run_loop (exec : AgentStep → Except AgentError StepResult) :
    Nat → AgentPlan → AgentState → AgentPlan × AgentState
  | 0, plan, st => (plan, st)
  | fuel + 1, plan, st =>
    match findPending st plan.steps with
    | none => (plan, st)
    | some s =>
      let st1 := st.set_step_status s.step_id .executing
      match exec (mkTempStep s) with
      | .ok out =>
          let st2 := (st1.set_step_status s.step_id .done).append_result s.step_id out
          run_loop exec fuel (updatePlanDone plan s.step_id) st2
      | .error e =>
          (updatePlanFailed plan s.step_id e.display,
           st1.set_step_status s.step_id .failed)

/-- The number of runnable steps of the plan in a given state. -/
def pendingCount (st : AgentState) (steps : List AgentStep) : Nat :=
  (steps.filter (selectableB st)).length

/-! ## Concrete states used by counterexamples and witnesses -/

/-- A task with the given id, priority and dependency list (remaining fields
as built by `Task::new`). -/
def mkTask (id : String) (priority : Priority) (deps : List String) : Task :=
  { id := id, task_type := .execution, priority := priority, status := .pending,
    payload := "", dependencies := deps, assigned_to := none, created_by := "master",
    created_at := 0, updated_at := 0, deadline := none, metadata := "" }

/-- Task `A`: critical, depends on `B`. -/
def taskA : Task := mkTask "A" .critical ["B"]

/-- Task `B`: low priority, no dependencies. -/
def taskB : Task := mkTask "B" .low []

/-- A queue state in which id `B` is simultaneously in the completed archive
and (re-inserted) in the in-progress map, while the critical band holds task
`A` whose only dependency is `B`.  Reachable from the empty queue via
`enqueue(B)`, `dequeue`, `mark_in_progress(B)`, `mark_completed("B")`,
`mark_in_progress(B)` again, then `enqueue(A)`. -/
def queueDepInProgress : TaskQueue :=
  { critical := [taskA], high := [], normal := [], low := [],
    in_progress := [("B", taskB.update_status .inProgress 0)],
    completed := [taskB.update_status .completed 0],
    failed := [], dependencies := [("A", ["B"])] }

/-- A well-formed queue used to instantiate the dequeue characterisation:
`B` completed, `A` pending critical. -/
def queueReadyA : TaskQueue :=
  { critical := [taskA], high := [], normal := [], low := [],
    in_progress := [], completed := [taskB.update_status .completed 0],
    failed := [], dependencies := [("A", ["B"])] }

/-- The queue obtained by enqueueing task `A` (no dependencies, critical) and
then calling `mark_in_progress` on it without dequeueing first — the raw
source API permits this. -/
def taskA6 : Task := mkTask "A" .critical []

/-- See `taskA6`: enqueue followed directly by `mark_in_progress`. -/
def queueDup : TaskQueue :=
  (TaskQueue.new.enqueue taskA6).mark_in_progress taskA6 0

/-- A queue with exactly one pending task (normal band). -/
def queueOnePending : TaskQueue :=
  { TaskQueue.new with normal := [mkTask "t1" .normal []] }

/-- A message with the given id, sender and receiver (remaining fields as
built by `Message::new`). -/
def mkMsg (id sender : String) (receiver : Option String) : Message :=
  { id := id, sender_id := sender, receiver_id := receiver,
    message_type := .taskAssignment, priority := .normal, payload := "",
    timestamp := 0, correlation_id := none, expires_at := none }

/-- `MessageBusConfig::default()`. -/
def defaultBusConfig : MessageBusConfig :=
  { broadcast_capacity := 1000, p2p_capacity := 100, history_size := 1000,
    enable_persistence := false }

/-- `MessageBusStats::default()`. -/
def zeroBusStats : MessageBusStats :=
  { total_messages := 0, broadcast_messages := 0, p2p_messages := 0,
    failed_deliveries := 0, expired_messages := 0 }

/-- A fresh bus with the default configuration and one subscriber. -/
def busFresh : MessageBus :=
  { p2p_channels := [], message_history := [], config := defaultBusConfig,
    stats := zeroBusStats, broadcast_subscribers := 1 }

/-- A message whose expiry instant `-1` precedes the send instant `0`. -/
def msgExpired : Message :=
  { mkMsg "m1" "a1" (some "a2") with expires_at := some (-1) }

/-- A bus on which agent id `a1` is already registered with a non-empty
inbox. -/
def busA1Registered : MessageBus :=
  { p2p_channels := [("a1", ⟨[mkMsg "m0" "a2" (some "a1")], false⟩)],
    message_history := [], config := defaultBusConfig, stats := zeroBusStats,
    broadcast_subscribers := 1 }

/-- A bus whose point-to-point capacity is 1 and whose inbox for `a1` is
full (one queued message) with the receiver still alive. -/
def busA1Full : MessageBus :=
  { p2p_channels := [("a1", ⟨[mkMsg "m0" "a2" (some "a1")], false⟩)],
    message_history := [],
    config := { defaultBusConfig with p2p_capacity := 1 },
    stats := zeroBusStats, broadcast_subscribers := 1 }

/-- One more point-to-point message addressed to `a1`. -/
def msgToA1 : Message := mkMsg "m1" "a2" (some "a1")

/-- A broadcast authored by `a1` as queued at a receiver. -/
def msgBroadcastFromA1 : Message := mkMsg "b1" "a1" none

/-- A broadcast authored by `a2` as queued at a receiver. -/
def msgBroadcastFromA2 : Message := mkMsg "b2" "a2" none

/-- Receiver `a1` with an empty point-to-point queue and two queued
broadcasts: its own, then one from `a2`. -/
def receiverA1 : MessageReceiver :=
  ⟨"a1", [], [msgBroadcastFromA1, msgBroadcastFromA2]⟩

/-- A registry row for agent `x`. -/
def infoX : AgentInfo :=
  { id := "x", agent_type := .executor, capabilities := [.taskExecution],
    status := .active, last_heartbeat := 17, metadata := "" }

/-- A registry holding exactly agent `x`, with consistent indices. -/
def registryX : AgentRegistry :=
  { agents := [("x", infoX)],
    capability_index := [(.taskExecution, ["x"])],
    type_index := [(.executor, ["x"])] }

/-- A memory entry with the given key (remaining fields as built by
`MemoryEntry::new`). -/
def mkEntry (key : String) : MemoryEntry :=
  { key := key, value := "1", created_by := "a", created_at := 0,
    updated_at := 0, access_level := .publicAccess, ttl := none, metadata := "" }

/-- A pool whose global tier and the tier of agent `ag` are both at their
capacity of one entry, holding key `k`. -/
def poolAtCapacity : MemoryPool :=
  { global_memory := [("k", mkEntry "k")],
    agent_memory := [("ag", [("k", mkEntry "k")])],
    config := { max_global_entries := 1, max_agent_entries := 1,
                enable_ttl := true, cleanup_interval_secs := 60 } }

/-- A plan step with the given id and action (remaining fields defaulted as
in the plan JSON). -/
def mkStep (id : Nat) (action : String) : AgentStep :=
  { step_id := id, description := "step", status := .pending, action := action,
    tool := none, parameters := none, input := none, output := none,
    is_succeeded := false, error_code := none, error_reason := none }

/-- A two-step plan. -/
def planTwo : AgentPlan :=
  { plan_id := "p1", description := none, version := none,
    steps := [mkStep 1 "call_tool", mkStep 2 "call_tool"],
    is_succeeded := false, error_step_id := none }

/-- An executor oracle that succeeds on step 1 and fails on step 2. -/
def execStub (s : AgentStep) : Except AgentError StepResult :=
  if s.step_id == 1 then .ok ⟨"r1", true⟩ else .error (.executionError "boom")

/-- The empty agent state. -/
def stateEmpty : AgentState := ⟨[], []⟩

/-- A state in which both steps of `planTwo` are recorded `Done`. -/
def stateDone : AgentState := ⟨[("1", .done), ("2", .done)], []⟩

/-- A state in which step 1 of `planTwo` is recorded `Done` and step 2 is
absent. -/
def stateOneDone : AgentState := ⟨[("1", .done)], []⟩

/-- A disciplined operation sequence from the empty queue: enqueue `B`,
dispatch it, enqueue `A`, complete `B`, clean up. -/
def opsW : List QueueOp :=
  [.enqueueOp taskB, .dequeueMark 0, .enqueueOp taskA6, .completeOp "B" 0, .cleanupOp 5]

/-! ## Generic lemmas about the map model -/

theorem lookupA_insertA_self {κ β : Type} [DecidableEq κ] (l : List (κ × β)) (k : κ) (v : β) :
    lookupA (insertA l k v) k = some v := by
  induction l with
  | nil => simp [insertA, lookupA]
  | cons hd rest ih =>
      obtain ⟨k', w⟩ := hd
      by_cases h : k' = k
      · simp [insertA, h, lookupA]
      · simp [insertA, h, lookupA, ih]

theorem lookupA_insertA_ne {κ β : Type} [DecidableEq κ] (l : List (κ × β)) {k j : κ} (v : β)
    (hne : j ≠ k) : lookupA (insertA l k v) j = lookupA l j := by
  have hkj : ¬ k = j := fun hh => hne hh.symm
  induction l with
  | nil => simp [insertA, lookupA, hkj]
  | cons hd rest ih =>
      obtain ⟨k', w⟩ := hd
      by_cases h : k' = k
      · subst h
        simp [insertA, lookupA, hkj]
      · simp [insertA, h, lookupA, ih]

theorem containsKeyA_iff_mem {κ β : Type} [DecidableEq κ] (l : List (κ × β)) (k : κ) :
    containsKeyA l k = true ↔ k ∈ l.map Prod.fst := by
  induction l with
  | nil => simp [containsKeyA, lookupA]
  | cons hd rest ih =>
      obtain ⟨k', w⟩ := hd
      by_cases h : k' = k
      · subst h
        simp [containsKeyA, lookupA]
      · have hne : ¬ k = k' := fun hh => h hh.symm
        have hstep : containsKeyA ((k', w) :: rest) k = containsKeyA rest k := by
          simp [containsKeyA, lookupA, h]
        rw [hstep, ih]
        simp [hne]

theorem insertA_of_not_contains {κ β : Type} [DecidableEq κ] {l : List (κ × β)} {k : κ}
    (v : β) (h : containsKeyA l k = false) : insertA l k v = l ++ [(k, v)] := by
  induction l with
  | nil => simp [insertA]
  | cons hd rest ih =>
      obtain ⟨k', w⟩ := hd
      by_cases hk : k' = k
      · simp [containsKeyA, lookupA, hk] at h
      · simp only [containsKeyA, lookupA, if_neg hk] at h
        simp [insertA, hk, ih h]

theorem length_insertA_of_contains {κ β : Type} [DecidableEq κ] {l : List (κ × β)} {k : κ}
    (v : β) (h : containsKeyA l k = true) : (insertA l k v).length = l.length := by
  induction l with
  | nil => simp [containsKeyA, lookupA] at h
  | cons hd rest ih =>
      obtain ⟨k', w⟩ := hd
      by_cases hk : k' = k
      · simp [insertA, hk]
      · simp only [containsKeyA, lookupA, if_neg hk] at h
        simp [insertA, hk, ih h]

theorem removeA_some_perm {κ β : Type} [DecidableEq κ] {l rest : List (κ × β)} {k : κ} {v : β}
    (h : removeA l k = (some v, rest)) : l.Perm ((k, v) :: rest) := by
  induction l generalizing rest with
  | nil => simp [removeA] at h
  | cons hd tl ih =>
      obtain ⟨k', w⟩ := hd
      by_cases hk : k' = k
      · subst hk
        simp [removeA] at h
        obtain ⟨hv, hrest⟩ := h
        subst hv; subst hrest
        exact List.Perm.refl _
      · rcases hrm : removeA tl k with ⟨o, r⟩
        simp only [removeA, if_neg hk, hrm, Prod.mk.injEq] at h
        obtain ⟨ho, hr⟩ := h
        subst ho
        subst hr
        exact ((ih hrm).cons (k', w)).trans (List.Perm.swap (k, v) (k', w) r)

/-! ## Generic lemmas about first-match scans -/

theorem list_all_congr {α : Type} {p q : α → Bool} {l : List α}
    (h : ∀ a ∈ l, p a = q a) : l.all p = l.all q := by
  induction l with
  | nil => rfl
  | cons a l ih =>
      simp only [List.all_cons, h a (by simp)]
      rw [ih fun b hb => h b (by simp [hb])]

theorem dequeueBand_eq (p : Task → Bool) (l : List Task) :
    dequeueBand p l = (l.find? p, l.eraseP p) := by
  induction l with
  | nil => simp [dequeueBand, List.eraseP_nil]
  | cons t rest ih =>
      cases h : p t
      · have h' : ¬ p t = true := by simp [h]
        simp [dequeueBand, h, ih, List.find?_cons_of_neg _ h', List.eraseP_cons_of_neg h']
      · simp [dequeueBand, h, List.find?_cons_of_pos _ h, List.eraseP_cons_of_pos h]

theorem find?_append_none {α : Type} (p : α → Bool) {a : List α} (b : List α)
    (h : a.find? p = none) : (a ++ b).find? p = b.find? p := by
  induction a with
  | nil => simp
  | cons x xs ih =>
      cases hx : p x
      · have hx' : ¬ p x = true := by simp [hx]
        simp only [List.find?_cons_of_neg _ hx'] at h
        simpa [List.find?_cons_of_neg _ hx'] using ih h
      · simp [List.find?_cons_of_pos _ hx] at h

theorem find?_append_some {α : Type} {p : α → Bool} {a : List α} {t : α} (b : List α)
    (h : a.find? p = some t) : (a ++ b).find? p = some t := by
  induction a with
  | nil => simp at h
  | cons x xs ih =>
      cases hx : p x
      · have hx' : ¬ p x = true := by simp [hx]
        simp only [List.find?_cons_of_neg _ hx'] at h
        simpa [List.find?_cons_of_neg _ hx'] using ih h
      · simp only [List.find?_cons_of_pos _ hx] at h
        simpa [List.find?_cons_of_pos _ hx] using h

theorem eraseP_self_of_find?_none {α : Type} {p : α → Bool} {l : List α}
    (h : l.find? p = none) : l.eraseP p = l := by
  induction l with
  | nil => simp
  | cons x xs ih =>
      cases hx : p x
      · have hx' : ¬ p x = true := by simp [hx]
        simp only [List.find?_cons_of_neg _ hx'] at h
        simp [List.eraseP_cons_of_neg hx', ih h]
      · simp [List.find?_cons_of_pos _ hx] at h

theorem eraseP_append_none {α : Type} {p : α → Bool} {a : List α} (b : List α)
    (h : a.find? p = none) : (a ++ b).eraseP p = a ++ b.eraseP p := by
  induction a with
  | nil => simp
  | cons x xs ih =>
      cases hx : p x
      · have hx' : ¬ p x = true := by simp [hx]
        simp only [List.find?_cons_of_neg _ hx'] at h
        simp [List.eraseP_cons_of_neg hx', ih h]
      · simp [List.find?_cons_of_pos _ hx] at h

theorem eraseP_append_some {α : Type} {p : α → Bool} {a : List α} {t : α} (b : List α)
    (h : a.find? p = some t) : (a ++ b).eraseP p = a.eraseP p ++ b := by
  induction a with
  | nil => simp at h
  | cons x xs ih =>
      cases hx : p x
      · have hx' : ¬ p x = true := by simp [hx]
        simp only [List.find?_cons_of_neg _ hx'] at h
        simp [List.eraseP_cons_of_neg hx', ih h]
      · simp [List.eraseP_cons_of_pos hx]

theorem perm_of_find?_some {α : Type} {p : α → Bool} {l : List α} {t : α}
    (h : l.find? p = some t) : l.Perm (t :: l.eraseP p) := by
  induction l with
  | nil => simp at h
  | cons x xs ih =>
      cases hx : p x
      · have hx' : ¬ p x = true := by simp [hx]
        simp only [List.find?_cons_of_neg _ hx'] at h
        rw [List.eraseP_cons_of_neg hx']
        exact ((ih h).cons x).trans (List.Perm.swap t x (xs.eraseP p))
      · simp only [List.find?_cons_of_pos _ hx] at h
        injection h with h
        subst h
        rw [List.eraseP_cons_of_pos hx]

/-! ## Task-queue dispatch (claim C1) -/

theorem inv_completed_not_in_progress (q : TaskQueue) (h : q.Inv) {x : String}
    (hc : x ∈ q.completed.map Task.id) : x ∉ q.in_progress.map Prod.fst := by
  intro hk
  have hnd := h.1
  unfold TaskQueue.allIds at hnd
  have h1 : (q.pendingAll.map Task.id ++ q.in_progress.map Prod.fst
      ++ q.completed.map Task.id).Nodup := hnd.of_append_left
  have h2 := (List.nodup_append.mp h1).2.2
  exact h2 (List.mem_append_right _ hk) hc

theorem are_dependencies_satisfied_eq_completed (q : TaskQueue) (h : q.Inv) (t : Task) :
    are_dependencies_satisfied t q.in_progress q.completed
      = t.dependencies.all fun dep => q.completed.any fun c => c.id == dep := by
  unfold are_dependencies_satisfied
  by_cases hemp : t.dependencies.isEmpty = true
  · have hnil : t.dependencies = [] := List.isEmpty_iff.mp hemp
    simp [hemp, hnil]
  · rw [if_neg hemp]
    refine list_all_congr fun dep _ => ?_
    cases hany : q.completed.any fun c => c.id == dep
    · simp [hany]
    · have hdep : dep ∈ q.completed.map Task.id := by
        obtain ⟨c, hcmem, hcid⟩ := List.any_eq_true.mp hany
        exact List.mem_map.mpr ⟨c, hcmem, (eq_of_beq hcid)⟩
      have hnk : containsKeyA q.in_progress dep = false := by
        cases hck : containsKeyA q.in_progress dep
        · rfl
        · exact absurd ((containsKeyA_iff_mem _ _).mp hck)
            (inv_completed_not_in_progress q h hdep)
      simp [hany, hnk]

theorem dequeue_char (q : TaskQueue) :
    (q.dequeue).1
        = q.pendingAll.find? (fun t => are_dependencies_satisfied t q.in_progress q.completed)
    ∧ (q.dequeue).2.pendingAll
        = q.pendingAll.eraseP (fun t => are_dependencies_satisfied t q.in_progress q.completed)
    ∧ (q.dequeue).2.in_progress = q.in_progress
    ∧ (q.dequeue).2.completed = q.completed
    ∧ (q.dequeue).2.failed = q.failed
    ∧ (q.dequeue).2.dependencies = q.dependencies := by
  simp only [TaskQueue.dequeue, dequeueBand_eq]
  set p := fun t => are_dependencies_satisfied t q.in_progress q.completed with hp
  rcases hc : q.critical.find? p with _ | t
  · rcases hh : q.high.find? p with _ | t
    · rcases hn : q.normal.find? p with _ | t
      · rcases hl : q.low.find? p with _ | t
        · have fz : (q.normal ++ q.low).find? p = none := by
            rw [find?_append_none p _ hn, hl]
          have fy : (q.high ++ (q.normal ++ q.low)).find? p = none := by
            rw [find?_append_none p _ hh, fz]
          have fx : (q.critical ++ (q.high ++ (q.normal ++ q.low))).find? p = none := by
            rw [find?_append_none p _ hc, fy]
          simp [hc, hh, hn, hl, TaskQueue.pendingAll, List.append_assoc, fx,
            eraseP_self_of_find?_none fx]
        · have fz : (q.normal ++ q.low).find? p = some t := by
            rw [find?_append_none p _ hn, hl]
          have fy : (q.high ++ (q.normal ++ q.low)).find? p = some t := by
            rw [find?_append_none p _ hh, fz]
          have fx : (q.critical ++ (q.high ++ (q.normal ++ q.low))).find? p = some t := by
            rw [find?_append_none p _ hc, fy]
          have ez : (q.normal ++ q.low).eraseP p = q.normal ++ q.low.eraseP p :=
            eraseP_append_none _ hn
          have ey : (q.high ++ (q.normal ++ q.low)).eraseP p
              = q.high ++ (q.normal ++ q.low.eraseP p) := by
            rw [eraseP_append_none _ hh, ez]
          have ex : (q.critical ++ (q.high ++ (q.normal ++ q.low))).eraseP p
              = q.critical ++ (q.high ++ (q.normal ++ q.low.eraseP p)) := by
            rw [eraseP_append_none _ hc, ey]
          simp [hc, hh, hn, hl, TaskQueue.pendingAll, List.append_assoc, fx, ex]
      · have fz : (q.normal ++ q.low).find? p = some t := find?_append_some _ hn
        have fy : (q.high ++ (q.normal ++ q.low)).find? p = some t := by
          rw [find?_append_none p _ hh, fz]
        have fx : (q.critical ++ (q.high ++ (q.normal ++ q.low))).find? p = some t := by
          rw [find?_append_none p _ hc, fy]
        have ez : (q.normal ++ q.low).eraseP p = q.normal.eraseP p ++ q.low :=
          eraseP_append_some _ hn
        have ey : (q.high ++ (q.normal ++ q.low)).eraseP p
            = q.high ++ (q.normal.eraseP p ++ q.low) := by
          rw [eraseP_append_none _ hh, ez]
        have ex : (q.critical ++ (q.high ++ (q.normal ++ q.low))).eraseP p
            = q.critical ++ (q.high ++ (q.normal.eraseP p ++ q.low)) := by
          rw [eraseP_append_none _ hc, ey]
        simp [hc, hh, hn, TaskQueue.pendingAll, List.append_assoc, fx, ex]
    · have fy : (q.high ++ (q.normal ++ q.low)).find? p = some t :=
        find?_append_some _ hh
      have fx : (q.critical ++ (q.high ++ (q.normal ++ q.low))).find? p = some t := by
        rw [find?_append_none p _ hc, fy]
      have ey : (q.high ++ (q.normal ++ q.low)).eraseP p
          = q.high.eraseP p ++ (q.normal ++ q.low) := eraseP_append_some _ hh
      have ex : (q.critical ++ (q.high ++ (q.normal ++ q.low))).eraseP p
          = q.critical ++ (q.high.eraseP p ++ (q.normal ++ q.low)) := by
        rw [eraseP_append_none _ hc, ey]
      simp [hc, hh, TaskQueue.pendingAll, List.append_assoc, fx, ex]
  · have fx : (q.critical ++ (q.high ++ (q.normal ++ q.low))).find? p = some t :=
      find?_append_some _ hc
    have ex : (q.critical ++ (q.high ++ (q.normal ++ q.low))).eraseP p
        = q.critical.eraseP p ++ (q.high ++ (q.normal ++ q.low)) :=
      eraseP_append_some _ hc
    simp [hc, TaskQueue.pendingAll, List.append_assoc, fx, ex]

/-- C1 (corrected claim, proved form): for every task queue state, `dequeue`
scans the pending bands in the order Critical, High, Normal, Low and, within
a band, in FIFO insertion order; it removes and returns the first task all
of whose dependency ids are present in the completed archive *and absent
from the in-progress map* (the source's `are_dependencies_satisfied`), and
returns none when no pending task qualifies; the in-progress map, the
archives and the dependency graph are untouched.  Under the one-collection
invariant the in-progress condition is redundant, so eligibility then
coincides with the claim's "every dependency id is in the completed
archive". -/
theorem dequeue_scans_priority_fifo (q : TaskQueue) :
    (q.dequeue).1
        = q.pendingAll.find? (fun t => are_dependencies_satisfied t q.in_progress q.completed)
    ∧ (q.dequeue).2.pendingAll
        = q.pendingAll.eraseP (fun t => are_dependencies_satisfied t q.in_progress q.completed)
    ∧ (q.dequeue).2.in_progress = q.in_progress
    ∧ (q.dequeue).2.completed = q.completed
    ∧ (q.dequeue).2.failed = q.failed
    ∧ (q.dequeue).2.dependencies = q.dependencies
    ∧ (q.Inv → ∀ t, are_dependencies_satisfied t q.in_progress q.completed
        = t.dependencies.all fun dep => q.completed.any fun c => c.id == dep) := by
  obtain ⟨k1, k2, k3, k4, k5, k6⟩ := dequeue_char q
  exact ⟨k1, k2, k3, k4, k5, k6,
    fun hInv t => are_dependencies_satisfied_eq_completed q hInv t⟩

/-- Witness for C1 at the concrete queue `queueReadyA` (where `B` is
completed and `A` pends in the critical band), discharging the invariant
hypothesis of the eligibility conjunct. -/
theorem dequeue_scans_priority_fifo_witness :
    (queueReadyA.dequeue).1 = queueReadyA.pendingAll.find?
        (fun t => are_dependencies_satisfied t queueReadyA.in_progress queueReadyA.completed)
    ∧ are_dependencies_satisfied taskA queueReadyA.in_progress queueReadyA.completed
        = taskA.dependencies.all fun dep => queueReadyA.completed.any fun c => c.id == dep :=
  ⟨(dequeue_scans_priority_fifo queueReadyA).1,
   (dequeue_scans_priority_fifo queueReadyA).2.2.2.2.2.2 (by decide) taskA⟩

/-- C1 counterexample: in `queueDepInProgress` every dependency id of the
first (and only) critical task `A` is present in the completed archive, so
the claim as stated requires `dequeue` to return `A`; the source returns
none because the dependency id `B` is also a key of the in-progress map. -/
theorem dequeue_requires_dep_not_in_progress_cex :
    (queueDepInProgress.dequeue).1 = none
    ∧ queueDepInProgress.critical = [taskA]
    ∧ (taskA.dependencies.all fun dep =>
        queueDepInProgress.completed.any fun c => c.id == dep) = true := by
  refine ⟨?_, rfl, ?_⟩ <;> rfl

/-! ## Queue size placeholder (claim C9) -/

/-- C9 (code-bug evidence): at the concrete queue `queueOnePending`, which
holds exactly one pending task, the source's `size` returns 0 while the sum
of the pending band lengths (as computed by the source's own `get_stats`) is
1, so `size()` does not return the sum of the band lengths required by the
specification. -/
theorem size_returns_zero_bug :
    queueOnePending.size = 0 ∧ (queueOnePending.get_stats).pending = 1 :=
  ⟨rfl, rfl⟩

/-! ## One-collection violation (claim C6 counterexample) -/

/-- C6 counterexample: after the operation sequence `enqueue(A)` then
`mark_in_progress(A)` — both raw source operations — the id `A` is
simultaneously in the critical pending band and a key of the in-progress
map, so it does not appear in exactly one of the four collections. -/
theorem task_in_two_collections_cex :
    queueDup.critical.map Task.id = ["A"]
    ∧ queueDup.in_progress.map Prod.fst = ["A"]
    ∧ queueDup.allIds = ["A", "A"]
    ∧ ¬ queueDup.Inv := by
  refine ⟨rfl, rfl, rfl, ?_⟩
  decide

/-! ## Message-bus expiry rejection (claim C3) -/

/-- C3: for every bus state and every message whose `expires_at` is set and
already past at send time, `send` returns the expiry delivery error, leaves
the history ring, every inbox and the subscriber count untouched, increments
the `expired_messages` counter and leaves every other counter unchanged. -/
theorem send_expired_rejected (bus : MessageBus) (now t : Int) (m : Message)
    (hset : m.expires_at = some t) (hpast : t < now) :
    bus.send now m = .err bus.bumpExpired (.messageDeliveryError "Message expired")
    ∧ (bus.send now m).bus.message_history = bus.message_history
    ∧ (bus.send now m).bus.p2p_channels = bus.p2p_channels
    ∧ (bus.send now m).bus.broadcast_subscribers = bus.broadcast_subscribers
    ∧ (bus.send now m).bus.stats.expired_messages = bus.stats.expired_messages + 1
    ∧ (bus.send now m).bus.stats.total_messages = bus.stats.total_messages
    ∧ (bus.send now m).bus.stats.broadcast_messages = bus.stats.broadcast_messages
    ∧ (bus.send now m).bus.stats.p2p_messages = bus.stats.p2p_messages
    ∧ (bus.send now m).bus.stats.failed_deliveries = bus.stats.failed_deliveries := by
  have hexp : m.is_expired now = true := by
    simp [Message.is_expired, hset, hpast]
  have h1 : bus.send now m
      = .err bus.bumpExpired (.messageDeliveryError "Message expired") := by
    simp [MessageBus.send, hexp]
  refine ⟨h1, ?_, ?_, ?_, ?_, ?_, ?_, ?_, ?_⟩ <;>
    rw [h1] <;> simp [SendOutcome.bus, MessageBus.bumpExpired]

/-- Witness for C3: the concrete expired message `msgExpired` (expiry -1,
sent at instant 0) on the fresh default bus. -/
theorem send_expired_rejected_witness :
    busFresh.send 0 msgExpired
      = .err busFresh.bumpExpired (.messageDeliveryError "Message expired")
    ∧ (busFresh.send 0 msgExpired).bus.message_history = busFresh.message_history :=
  ⟨(send_expired_rejected busFresh 0 (-1) msgExpired rfl (by decide)).1,
   (send_expired_rejected busFresh 0 (-1) msgExpired rfl (by decide)).2.1⟩

/-! ## Duplicate registration (claim C4) -/

/-- C4 counterexample: on `busA1Registered`, where `a1` is already
registered with a non-empty inbox, `register_agent "a1"` does not fail: it
returns `Ok` and rebinds `a1` to a fresh empty inbox, discarding the
previous one. -/
theorem register_duplicate_succeeds_cex :
    lookupA busA1Registered.p2p_channels "a1"
      = some ⟨[mkMsg "m0" "a2" (some "a1")], false⟩
    ∧ busA1Registered.register_agent "a1"
      = .ok ({ busA1Registered with
                 p2p_channels := [("a1", ⟨[], false⟩)],
                 broadcast_subscribers := 2 }, ⟨"a1", [], []⟩) := by
  exact ⟨rfl, rfl⟩

/-- C4 (corrected claim, proved form): registering an id that is already
registered succeeds (no error is possible) and replaces the existing inbox
with a fresh empty one; other inboxes, the history and the statistics are
unchanged, and the returned receiver carries the id with empty queues. -/
theorem register_replaces_existing_inbox (bus : MessageBus) (id : String) (inbox : Inbox)
    (h : lookupA bus.p2p_channels id = some inbox) :
    ∃ bus' rcv, bus.register_agent id = .ok (bus', rcv)
    ∧ lookupA bus'.p2p_channels id = some ⟨[], false⟩
    ∧ (∀ j, j ≠ id → lookupA bus'.p2p_channels j = lookupA bus.p2p_channels j)
    ∧ bus'.message_history = bus.message_history
    ∧ bus'.stats = bus.stats
    ∧ rcv = ⟨id, [], []⟩ := by
  refine ⟨_, _, rfl, ?_, ?_, rfl, rfl, rfl⟩
  · exact lookupA_insertA_self ..
  · intro j hj
    exact lookupA_insertA_ne _ _ hj

/-- Witness for C4 at `busA1Registered`, discharging the already-registered
hypothesis. -/
theorem register_replaces_existing_inbox_witness :
    ∃ bus' rcv, busA1Registered.register_agent "a1" = .ok (bus', rcv)
      ∧ lookupA bus'.p2p_channels "a1" = some ⟨[], false⟩ := by
  obtain ⟨bus', rcv, h1, h2, -⟩ :=
    register_replaces_existing_inbox busA1Registered "a1"
      ⟨[mkMsg "m0" "a2" (some "a1")], false⟩ rfl
  exact ⟨bus', rcv, h1, h2⟩

/-! ## Full inbox behaviour (claim C5) -/

/-- C5 counterexample: on `busA1Full` (capacity 1, one queued message,
receiver alive) one more send addressed to `a1` does not return any error —
in particular no backpressure error — and does not increment
`failed_deliveries`; the `tokio` bounded-channel send suspends awaiting
capacity, which the model records as the `blocked` outcome, and the message
is not enqueued. -/
theorem send_full_inbox_blocks_cex :
    busA1Full.send 0 msgToA1
      = .blocked ((busA1Full.bumpTotal.save_to_history msgToA1).bumpP2P)
    ∧ (busA1Full.send 0 msgToA1).bus.stats.failed_deliveries
        = busA1Full.stats.failed_deliveries
    ∧ (busA1Full.send 0 msgToA1).bus.p2p_channels = busA1Full.p2p_channels := by
  exact ⟨rfl, rfl, rfl⟩

/-- C5 (corrected claim, proved form): a further `send` addressed to a
registered, still-open inbox that already holds `p2p_capacity` messages does
not return an error; it suspends awaiting capacity (`blocked`), leaves every
inbox and the `failed_deliveries` and `expired_messages` counters unchanged,
having already counted the message in `total_messages` and `p2p_messages`
and appended it to the history. -/
theorem send_full_inbox_blocks (bus : MessageBus) (now : Int) (m : Message) (rid : String)
    (inbox : Inbox) (hexp : m.is_expired now = false) (hrid : m.receiver_id = some rid)
    (hlook : lookupA bus.p2p_channels rid = some inbox) (hopen : inbox.closed = false)
    (hfull : bus.config.p2p_capacity ≤ inbox.queue.length) :
    ∃ bus', bus.send now m = .blocked bus'
    ∧ bus'.p2p_channels = bus.p2p_channels
    ∧ bus'.stats.failed_deliveries = bus.stats.failed_deliveries
    ∧ bus'.stats.expired_messages = bus.stats.expired_messages
    ∧ bus'.stats.total_messages = bus.stats.total_messages + 1
    ∧ bus'.stats.p2p_messages = bus.stats.p2p_messages + 1 := by
  have hbc : m.is_broadcast = false := by
    simp [Message.is_broadcast, hrid]
  refine ⟨(bus.bumpTotal.save_to_history m).bumpP2P, ?_, ?_, ?_, ?_, ?_, ?_⟩
  · simp only [MessageBus.send, hexp, Bool.false_eq_true, if_false, hbc,
      MessageBus.send_p2p, hrid]
    have hlook2 : lookupA ((bus.bumpTotal.save_to_history m).bumpP2P).p2p_channels rid
        = some inbox := by
      simpa [MessageBus.bumpTotal, MessageBus.save_to_history, MessageBus.bumpP2P]
        using hlook
    rw [hlook2]
    simp [hopen, MessageBus.bumpTotal, MessageBus.save_to_history, MessageBus.bumpP2P, hfull]
  · simp [MessageBus.bumpTotal, MessageBus.save_to_history, MessageBus.bumpP2P]
  · simp [MessageBus.bumpTotal, MessageBus.save_to_history, MessageBus.bumpP2P]
  · simp [MessageBus.bumpTotal, MessageBus.save_to_history, MessageBus.bumpP2P]
  · simp [MessageBus.bumpTotal, MessageBus.save_to_history, MessageBus.bumpP2P]
  · simp [MessageBus.bumpTotal, MessageBus.save_to_history, MessageBus.bumpP2P]

/-- Witness for C5 at `busA1Full` and `msgToA1`, discharging the full-inbox
hypotheses. -/
theorem send_full_inbox_blocks_witness :
    ∃ bus', busA1Full.send 0 msgToA1 = .blocked bus'
      ∧ bus'.stats.failed_deliveries = busA1Full.stats.failed_deliveries := by
  obtain ⟨bus', h1, -, h3, -⟩ :=
    send_full_inbox_blocks busA1Full 0 msgToA1 "a1"
      ⟨[mkMsg "m0" "a2" (some "a1")], false⟩ rfl rfl rfl rfl (by decide)
  exact ⟨bus', h1, h3⟩

/-! ## Receiver self-filtering (claim C8) -/

theorem recvBroadcastLoop_ne (agent : String) (l : List Message) (m : Message)
    (l' : List Message) (h : recvBroadcastLoop agent l = (some m, l')) :
    m.sender_id ≠ agent := by
  induction l generalizing l' with
  | nil => simp [recvBroadcastLoop] at h
  | cons x xs ih =>
      by_cases hx : x.sender_id = agent
      · simp only [recvBroadcastLoop, if_pos hx] at h
        exact ih l' h
      · simp only [recvBroadcastLoop, if_neg hx, Prod.mk.injEq, Option.some.injEq] at h
        obtain ⟨hm, -⟩ := h
        subst hm
        exact hx

theorem recvBroadcastLoop_delivers (agent : String) (pre : List Message) (m : Message)
    (rest : List Message) (hpre : ∀ x ∈ pre, x.sender_id = agent)
    (hm : m.sender_id ≠ agent) :
    recvBroadcastLoop agent (pre ++ m :: rest) = (some m, rest) := by
  induction pre with
  | nil => simp [recvBroadcastLoop, hm]
  | cons x xs ih =>
      have hx : x.sender_id = agent := hpre x (by simp)
      simp only [List.cons_append, recvBroadcastLoop, if_pos hx]
      exact ih fun y hy => hpre y (by simp [hy])

/-- C8: a broadcast authored by the receiving agent itself is never yielded:
any message returned by `recv` or `try_recv` either came from the
point-to-point queue or has a different sender id, and when the pending
broadcasts are some self-authored messages followed by one from another
agent, `recv` skips the former and delivers the latter. -/
theorem broadcast_excludes_sender :
    (∀ (r : MessageReceiver) (m : Message) (r' : MessageReceiver),
        r.recv = (some m, r') → m ∈ r.p2p_rx ∨ m.sender_id ≠ r.agent_id)
    ∧ (∀ (r : MessageReceiver) (m : Message) (r' : MessageReceiver),
        r.try_recv = (some m, r') → m ∈ r.p2p_rx ∨ m.sender_id ≠ r.agent_id)
    ∧ (∀ (agent : String) (pre : List Message) (m : Message) (rest : List Message),
        (∀ x ∈ pre, x.sender_id = agent) → m.sender_id ≠ agent →
        MessageReceiver.recv ⟨agent, [], pre ++ m :: rest⟩
          = (some m, ⟨agent, [], rest⟩)) := by
  refine ⟨?_, ?_, ?_⟩
  · intro r m r' h
    cases hp : r.p2p_rx with
    | cons x rest =>
        simp only [MessageReceiver.recv, hp, Prod.mk.injEq, Option.some.injEq] at h
        obtain ⟨hm, -⟩ := h
        subst hm
        refine Or.inl ?_
        exact List.mem_cons_self _ _
    | nil =>
        rcases hb : recvBroadcastLoop r.agent_id r.broadcast_rx with ⟨o, l'⟩
        simp only [MessageReceiver.recv, hp, hb, Prod.mk.injEq] at h
        obtain ⟨ho, -⟩ := h
        subst ho
        exact Or.inr (recvBroadcastLoop_ne _ _ _ _ hb)
  · intro r m r' h
    cases hp : r.p2p_rx with
    | cons x rest =>
        simp only [MessageReceiver.try_recv, hp, Prod.mk.injEq, Option.some.injEq] at h
        obtain ⟨hm, -⟩ := h
        subst hm
        refine Or.inl ?_
        exact List.mem_cons_self _ _
    | nil =>
        cases hbq : r.broadcast_rx with
        | nil => simp [MessageReceiver.try_recv, hp, hbq] at h
        | cons b brest =>
            by_cases hs : b.sender_id ≠ r.agent_id
            · simp only [MessageReceiver.try_recv, hp, hbq, if_pos hs, Prod.mk.injEq,
                Option.some.injEq] at h
              obtain ⟨hm, -⟩ := h
              subst hm
              exact Or.inr hs
            · simp [MessageReceiver.try_recv, hp, hbq, if_neg hs] at h
  · intro agent pre m rest hpre hm
    simp only [MessageReceiver.recv, recvBroadcastLoop_delivers agent pre m rest hpre hm]

/-- Witness for C8: receiver `a1` with queued broadcasts `[from a1, from
a2]` skips its own and yields the one from `a2`. -/
theorem broadcast_excludes_sender_witness :
    MessageReceiver.recv ⟨"a1", [], [msgBroadcastFromA1, msgBroadcastFromA2]⟩
      = (some msgBroadcastFromA2, ⟨"a1", [], []⟩) :=
  (broadcast_excludes_sender).2.2 "a1" [msgBroadcastFromA1] msgBroadcastFromA2 []
    (fun x hx => by
      simp only [List.mem_singleton] at hx
      subst hx
      rfl)
    (by decide)

/-! ## Registry status update (claim C10) -/

/-- C10: for every registered agent id, `update_status` succeeds and changes
only the `status` field of that agent's row: the row keeps its
`last_heartbeat`, capabilities, type and metadata, every other row is
unchanged, and both secondary indices are untouched — in particular a status
update does not refresh liveness. -/
theorem update_status_frame (reg : AgentRegistry) (id : String) (info : AgentInfo)
    (status : AgentStatus) (h : lookupA reg.agents id = some info) :
    ∃ reg', reg.update_status id status = .ok reg'
    ∧ lookupA reg'.agents id = some { info with status := status }
    ∧ (∀ j, j ≠ id → lookupA reg'.agents j = lookupA reg.agents j)
    ∧ reg'.capability_index = reg.capability_index
    ∧ reg'.type_index = reg.type_index
    ∧ (lookupA reg'.agents id).map AgentInfo.last_heartbeat = some info.last_heartbeat
    ∧ (lookupA reg'.agents id).map AgentInfo.capabilities = some info.capabilities
    ∧ (lookupA reg'.agents id).map AgentInfo.agent_type = some info.agent_type
    ∧ (lookupA reg'.agents id).map AgentInfo.metadata = some info.metadata := by
  refine ⟨{ reg with agents := insertA reg.agents id { info with status := status } },
    ?_, ?_, ?_, rfl, rfl, ?_, ?_, ?_, ?_⟩
  · simp [AgentRegistry.update_status, h]
  · exact lookupA_insertA_self ..
  · intro j hj
    exact lookupA_insertA_ne _ _ hj
  all_goals simp [lookupA_insertA_self]

/-- Witness for C10 at `registryX`, discharging the registered-id
hypothesis. -/
theorem update_status_frame_witness :
    ∃ reg', registryX.update_status "x" .busy = .ok reg'
      ∧ lookupA reg'.agents "x" = some { infoX with status := .busy }
      ∧ reg'.capability_index = registryX.capability_index
      ∧ (lookupA reg'.agents "x").map AgentInfo.last_heartbeat
          = some infoX.last_heartbeat := by
  obtain ⟨reg', h1, h2, -, h4, -, h6, -⟩ :=
    update_status_frame registryX "x" infoX .busy rfl
  exact ⟨reg', h1, h2, h4, h6⟩

/-! ## Memory-pool capacity gate (claim C7) -/

theorem lookupA_eq_none_of_not_contains {κ β : Type} [DecidableEq κ] {l : List (κ × β)}
    {k : κ} (h : containsKeyA l k = false) : lookupA l k = none := by
  unfold containsKeyA at h
  cases hl : lookupA l k
  · rfl
  · rw [hl] at h
    simp at h

theorem set_global_reject (pool : MemoryPool) (e : MemoryEntry)
    (hcap : pool.config.max_global_entries ≤ pool.global_memory.length)
    (hnc : containsKeyA pool.global_memory e.key = false) :
    pool.set_global e = (.error (.resourceExhausted "Global memory pool is full"), pool) := by
  unfold MemoryPool.set_global
  rw [if_pos ⟨hcap, hnc⟩]

theorem set_global_update (pool : MemoryPool) (e : MemoryEntry)
    (hck : containsKeyA pool.global_memory e.key = true) :
    pool.set_global e
      = (.ok (), { pool with global_memory := insertA pool.global_memory e.key e }) := by
  unfold MemoryPool.set_global
  rw [if_neg ?hc]
  case hc =>
    rintro ⟨-, hc2⟩
    rw [hck] at hc2
    cases hc2

theorem set_agent_reject (pool : MemoryPool) (agent_id : String) (e : MemoryEntry)
    (hcap : pool.config.max_agent_entries ≤ (pool.agentEntries agent_id).length)
    (hnc : containsKeyA (pool.agentEntries agent_id) e.key = false) :
    (pool.set_agent agent_id e).1
      = .error (.resourceExhausted ("Agent " ++ agent_id ++ " memory is full"))
    ∧ ∀ a, (pool.set_agent agent_id e).2.agentEntries a = pool.agentEntries a := by
  cases hca : containsKeyA pool.agent_memory agent_id with
  | false =>
      have hla : lookupA pool.agent_memory agent_id = none :=
        lookupA_eq_none_of_not_contains hca
      have hent : pool.agentEntries agent_id = [] := by
        rw [MemoryPool.agentEntries, hla]
        rfl
      have houter : pool.agent_memory ++ [(agent_id, [])]
          = insertA pool.agent_memory agent_id [] :=
        (insertA_of_not_contains _ hca).symm
      have hmem : (lookupA (pool.agent_memory ++ [(agent_id, ([] : List (String × MemoryEntry)))])
          agent_id).getD [] = [] := by
        rw [houter, lookupA_insertA_self]
        rfl
      have heq : pool.set_agent agent_id e
          = (.error (.resourceExhausted ("Agent " ++ agent_id ++ " memory is full")),
             { pool with agent_memory := pool.agent_memory ++ [(agent_id, [])] }) := by
        unfold MemoryPool.set_agent
        rw [hca]
        simp only [Bool.false_eq_true, if_false, hmem]
        rw [if_pos ?hc]
        case hc =>
          constructor
          · rw [hent] at hcap
            simpa using hcap
          · rw [hent] at hnc
            exact hnc
      rw [heq]
      refine ⟨rfl, fun a => ?_⟩
      by_cases ha : a = agent_id
      · subst ha
        simp only [MemoryPool.agentEntries, hla]
        rw [houter, lookupA_insertA_self]
        rfl
      · simp only [MemoryPool.agentEntries]
        rw [houter, lookupA_insertA_ne _ _ ha]
  | true =>
      rcases hla : lookupA pool.agent_memory agent_id with _ | mems
      · rw [containsKeyA, hla] at hca
        cases hca
      · have hent : pool.agentEntries agent_id = mems := by
          rw [MemoryPool.agentEntries, hla]
          rfl
        have heq : pool.set_agent agent_id e
            = (.error (.resourceExhausted ("Agent " ++ agent_id ++ " memory is full")),
               { pool with agent_memory := pool.agent_memory }) := by
          unfold MemoryPool.set_agent
          rw [hca]
          simp only [if_true, hla, Option.getD_some]
          rw [if_pos ?hc]
          case hc =>
            constructor
            · rw [hent] at hcap
              exact hcap
            · rw [hent] at hnc
              exact hnc
        rw [heq]
        exact ⟨rfl, fun a => rfl⟩

theorem set_agent_update (pool : MemoryPool) (agent_id : String) (e : MemoryEntry)
    (hck : containsKeyA (pool.agentEntries agent_id) e.key = true) :
    (pool.set_agent agent_id e).1 = .ok ()
    ∧ lookupA ((pool.set_agent agent_id e).2.agentEntries agent_id) e.key = some e
    ∧ ((pool.set_agent agent_id e).2.agentEntries agent_id).length
        = (pool.agentEntries agent_id).length := by
  rcases hla : lookupA pool.agent_memory agent_id with _ | mems
  · rw [MemoryPool.agentEntries, hla] at hck
    simp [containsKeyA, lookupA] at hck
  · have hca : containsKeyA pool.agent_memory agent_id = true := by
      rw [containsKeyA, hla]
      rfl
    have hent : pool.agentEntries agent_id = mems := by
      rw [MemoryPool.agentEntries, hla]
      rfl
    rw [hent] at hck
    have heq : pool.set_agent agent_id e
        = (.ok (), { pool with
            agent_memory := insertA pool.agent_memory agent_id (insertA mems e.key e) }) := by
      unfold MemoryPool.set_agent
      rw [hca]
      simp only [if_true, hla, Option.getD_some]
      rw [if_neg ?hc]
      case hc =>
        rintro ⟨-, hc2⟩
        rw [hck] at hc2
        cases hc2
    rw [heq]
    have hres : ({ pool with
        agent_memory := insertA pool.agent_memory agent_id (insertA mems e.key e) }
          : MemoryPool).agentEntries agent_id = insertA mems e.key e := by
      simp only [MemoryPool.agentEntries]
      rw [lookupA_insertA_self]
      rfl
    refine ⟨rfl, ?_, ?_⟩
    · rw [hres, lookupA_insertA_self]
    · rw [hres, hent, length_insertA_of_contains _ hck]

/-- C7: on a tier (global or per-agent) whose entry count has reached the
tier's capacity, `set` of a new key returns `ResourceExhausted` and leaves
every tier's entries unchanged, while `set` of an existing key succeeds,
stores the new entry under the key and keeps the entry count. -/
theorem memory_set_capacity_gate :
    (∀ (pool : MemoryPool) (e : MemoryEntry),
        pool.config.max_global_entries ≤ pool.global_memory.length →
        containsKeyA pool.global_memory e.key = false →
        pool.set_global e = (.error (.resourceExhausted "Global memory pool is full"), pool))
    ∧ (∀ (pool : MemoryPool) (e : MemoryEntry),
        containsKeyA pool.global_memory e.key = true →
        (pool.set_global e).1 = .ok ()
        ∧ lookupA (pool.set_global e).2.global_memory e.key = some e
        ∧ (∀ j, j ≠ e.key → lookupA (pool.set_global e).2.global_memory j
            = lookupA pool.global_memory j)
        ∧ (pool.set_global e).2.global_memory.length = pool.global_memory.length)
    ∧ (∀ (pool : MemoryPool) (agent_id : String) (e : MemoryEntry),
        pool.config.max_agent_entries ≤ (pool.agentEntries agent_id).length →
        containsKeyA (pool.agentEntries agent_id) e.key = false →
        (pool.set_agent agent_id e).1
          = .error (.resourceExhausted ("Agent " ++ agent_id ++ " memory is full"))
        ∧ ∀ a, (pool.set_agent agent_id e).2.agentEntries a = pool.agentEntries a)
    ∧ (∀ (pool : MemoryPool) (agent_id : String) (e : MemoryEntry),
        containsKeyA (pool.agentEntries agent_id) e.key = true →
        (pool.set_agent agent_id e).1 = .ok ()
        ∧ lookupA ((pool.set_agent agent_id e).2.agentEntries agent_id) e.key = some e
        ∧ ((pool.set_agent agent_id e).2.agentEntries agent_id).length
            = (pool.agentEntries agent_id).length) := by
  refine ⟨set_global_reject, ?_, set_agent_reject, set_agent_update⟩
  intro pool e hck
  rw [set_global_update pool e hck]
  refine ⟨rfl, ?_, ?_, ?_⟩
  · exact lookupA_insertA_self ..
  · intro j hj
    exact lookupA_insertA_ne _ _ hj
  · exact length_insertA_of_contains _ hck

/-- Witness for C7 at `poolAtCapacity` (both tiers at capacity 1 on key
`k`): a new key `k2` is rejected on each tier and the existing key `k`
still succeeds on each tier. -/
theorem memory_set_capacity_gate_witness :
    poolAtCapacity.set_global (mkEntry "k2")
      = (.error (.resourceExhausted "Global memory pool is full"), poolAtCapacity)
    ∧ (poolAtCapacity.set_global (mkEntry "k")).1 = .ok ()
    ∧ (poolAtCapacity.set_agent "ag" (mkEntry "k2")).1
      = .error (.resourceExhausted ("Agent " ++ "ag" ++ " memory is full"))
    ∧ (poolAtCapacity.set_agent "ag" (mkEntry "k")).1 = .ok () :=
  ⟨(memory_set_capacity_gate).1 poolAtCapacity (mkEntry "k2") (by decide) (by decide),
   ((memory_set_capacity_gate).2.1 poolAtCapacity (mkEntry "k") (by decide)).1,
   ((memory_set_capacity_gate).2.2.1 poolAtCapacity "ag" (mkEntry "k2")
      (by decide) (by decide)).1,
   ((memory_set_capacity_gate).2.2.2 poolAtCapacity "ag" (mkEntry "k") (by decide)).1⟩

/-! ## Plan-execution loop (claim C2) -/

theorem insertA_insertA_self {κ β : Type} [DecidableEq κ] (l : List (κ × β)) (k : κ)
    (v w : β) : insertA (insertA l k v) k w = insertA l k w := by
  induction l with
  | nil => simp [insertA]
  | cons hd rest ih =>
      obtain ⟨k', u⟩ := hd
      by_cases h : k' = k
      · simp [insertA, h]
      · simp [insertA, h, ih]

theorem set_step_status_collapse (st : AgentState) (i : Nat) (s1 s2 : StepStatus) :
    (st.set_step_status i s1).set_step_status i s2 = st.set_step_status i s2 := by
  simp [AgentState.set_step_status, insertA_insertA_self]

theorem selectableB_append_result (st : AgentState) (i : Nat) (r : StepResult)
    (s : AgentStep) : selectableB (st.append_result i r) s = selectableB st s := rfl

theorem selectableB_set_self (st : AgentState) (i : Nat) (status : StepStatus)
    (hs : status ≠ .pending) (s : AgentStep) (h : toString s.step_id = toString i) :
    selectableB (st.set_step_status i status) s = false := by
  unfold selectableB AgentState.get_step_status AgentState.set_step_status
  simp only [h, lookupA_insertA_self]
  cases status
  · exact absurd rfl hs
  · rfl
  · rfl
  · rfl

theorem selectableB_set_other (st : AgentState) (i : Nat) (status : StepStatus)
    (s : AgentStep) (h : toString s.step_id ≠ toString i) :
    selectableB (st.set_step_status i status) s = selectableB st s := by
  unfold selectableB AgentState.get_step_status AgentState.set_step_status
  rw [lookupA_insertA_ne _ _ h]

theorem selectableB_set_mono (st : AgentState) (i : Nat) (status : StepStatus)
    (hs : status ≠ .pending) (s : AgentStep)
    (h : selectableB (st.set_step_status i status) s = true) : selectableB st s = true := by
  by_cases hk : toString s.step_id = toString i
  · rw [selectableB_set_self st i status hs s hk] at h
    cases h
  · rwa [selectableB_set_other st i status s hk] at h

theorem length_filter_le_of_imp {α : Type} {p q : α → Bool} (l : List α)
    (h : ∀ a, p a = true → q a = true) : (l.filter p).length ≤ (l.filter q).length := by
  induction l with
  | nil => exact Nat.le_refl _
  | cons x xs ih =>
      cases hp : p x
      · cases hq : q x
        · simpa [List.filter_cons, hp, hq] using ih
        · simp only [List.filter_cons, hp, hq]
          exact Nat.le_succ_of_le ih
      · have hq := h x hp
        simp only [List.filter_cons, hp, hq]
        exact Nat.succ_le_succ ih

theorem pendingCount_set_lt (st : AgentState) (steps : List AgentStep) (s : AgentStep)
    (hfind : findPending st steps = some s) (status : StepStatus)
    (hs : status ≠ .pending) :
    pendingCount (st.set_step_status s.step_id status) steps < pendingCount st steps := by
  induction steps with
  | nil => simp [findPending] at hfind
  | cons x xs ih =>
      cases hsel : selectableB st x
      · have hx' : ¬ selectableB st x = true := by simp [hsel]
        rw [findPending, List.find?_cons_of_neg _ hx'] at hfind
        have hxnew : selectableB (st.set_step_status s.step_id status) x = false := by
          by_cases hk : toString x.step_id = toString s.step_id
          · exact selectableB_set_self st s.step_id status hs x hk
          · rw [selectableB_set_other st s.step_id status x hk]
            exact hsel
        simp only [pendingCount, List.filter_cons, hxnew, hsel]
        exact ih hfind
      · rw [findPending, List.find?_cons_of_pos _ hsel] at hfind
        injection hfind with hfind
        subst hfind
        have hxnew : selectableB (st.set_step_status x.step_id status) x = false :=
          selectableB_set_self st x.step_id status hs x rfl
        simp only [pendingCount, List.filter_cons, hxnew, hsel]
        have hle : ((xs.filter (selectableB (st.set_step_status x.step_id status))).length)
            ≤ (xs.filter (selectableB st)).length :=
          length_filter_le_of_imp xs fun a ha =>
            selectableB_set_mono st x.step_id status hs a ha
        exact Nat.lt_succ_of_le hle

theorem updateFirst_map_step_id (p : AgentStep → Bool) (f : AgentStep → AgentStep)
    (hf : ∀ x, (f x).step_id = x.step_id) (steps : List AgentStep) :
    (updateFirst p f steps).map AgentStep.step_id = steps.map AgentStep.step_id := by
  induction steps with
  | nil => rfl
  | cons x xs ih =>
      by_cases hx : p x = true
      · simp [updateFirst, hx, hf x]
      · simp [updateFirst, hx, ih]

theorem pendingCount_updateFirst (st : AgentState) (p : AgentStep → Bool)
    (f : AgentStep → AgentStep) (hf : ∀ x, (f x).step_id = x.step_id)
    (steps : List AgentStep) :
    pendingCount st (updateFirst p f steps) = pendingCount st steps := by
  induction steps with
  | nil => rfl
  | cons x xs ih =>
      have hsel : selectableB st (f x) = selectableB st x := by
        unfold selectableB AgentState.get_step_status
        rw [hf x]
      by_cases hx : p x = true
      · rw [updateFirst, if_pos hx]
        simp only [pendingCount, List.filter_cons, hsel]
        cases selectableB st x <;> simp [ih]
      · simp only [updateFirst, if_neg hx]
        simp only [pendingCount, List.filter_cons] at ih ⊢
        cases selectableB st x <;> simpa using ih

theorem selectableB_congr {st1 st2 : AgentState} (h : st1.step_status = st2.step_status)
    (s : AgentStep) : selectableB st1 s = selectableB st2 s := by
  unfold selectableB AgentState.get_step_status
  rw [h]

theorem pendingCount_congr {st1 st2 : AgentState} (h : st1.step_status = st2.step_status)
    (steps : List AgentStep) : pendingCount st1 steps = pendingCount st2 steps := by
  unfold pendingCount
  have : steps.filter (selectableB st1) = steps.filter (selectableB st2) := by
    apply List.filter_congr
    intro a _
    exact selectableB_congr h a
  rw [this]

theorem findPending_eq_none_of_count_zero (st : AgentState) (steps : List AgentStep)
    (h : pendingCount st steps = 0) : findPending st steps = none := by
  unfold pendingCount at h
  have hnil := List.length_eq_zero.mp h
  rw [findPending, List.find?_eq_none]
  intro x hx hsel
  have : x ∈ steps.filter (selectableB st) := List.mem_filter.mpr ⟨hx, hsel⟩
  rw [hnil] at this
  cases this

theorem run_loop_reaches_exit (exec : AgentStep → Except AgentError StepResult) :
    ∀ (fuel : Nat) (plan : AgentPlan) (st : AgentState),
    pendingCount st plan.steps ≤ fuel →
    (findPending (run_loop exec fuel plan st).2 (run_loop exec fuel plan st).1.steps = none
      ∨ ∃ s ∈ (run_loop exec fuel plan st).1.steps,
          (run_loop exec fuel plan st).2.get_step_status s.step_id = some .failed) := by
  intro fuel
  induction fuel with
  | zero =>
      intro plan st h
      exact Or.inl (findPending_eq_none_of_count_zero st plan.steps (Nat.le_zero.mp h))
  | succ n ih =>
      intro plan st h
      cases hf : findPending st plan.steps with
      | none =>
          have hrun : run_loop exec (n + 1) plan st = (plan, st) := by
            simp only [run_loop, hf]
          rw [hrun]
          exact Or.inl hf
      | some s =>
          cases hex : exec (mkTempStep s) with
          | ok out =>
              have hrun : run_loop exec (n + 1) plan st
                  = run_loop exec n (updatePlanDone plan s.step_id)
                      (((st.set_step_status s.step_id .executing).set_step_status
                          s.step_id .done).append_result s.step_id out) := by
                simp only [run_loop, hf, hex]
              rw [hrun]
              apply ih
              have hstat : (((st.set_step_status s.step_id .executing).set_step_status
                  s.step_id .done).append_result s.step_id out).step_status
                    = (st.set_step_status s.step_id .done).step_status := by
                simp [AgentState.append_result, set_step_status_collapse]
              calc pendingCount (((st.set_step_status s.step_id .executing).set_step_status
                      s.step_id .done).append_result s.step_id out)
                    (updatePlanDone plan s.step_id).steps
                  = pendingCount (st.set_step_status s.step_id .done)
                      (updatePlanDone plan s.step_id).steps :=
                    pendingCount_congr hstat _
                _ = pendingCount (st.set_step_status s.step_id .done) plan.steps :=
                    pendingCount_updateFirst (st.set_step_status s.step_id .done)
                      (fun s1 => s1.step_id == s.step_id)
                      (fun s1 => { s1 with status := .done, is_succeeded := true })
                      (fun x => rfl) plan.steps
                _ ≤ n := by
                    have hlt := pendingCount_set_lt st plan.steps s hf .done (by simp)
                    exact Nat.lt_succ_iff.mp (Nat.lt_of_lt_of_le hlt h)
          | error e =>
              have hrun : run_loop exec (n + 1) plan st
                  = (updatePlanFailed plan s.step_id e.display,
                     (st.set_step_status s.step_id .executing).set_step_status
                       s.step_id .failed) := by
                simp only [run_loop, hf, hex]
              rw [hrun]
              refine Or.inr ?_
              have hsmem : s ∈ plan.steps := List.mem_of_find?_eq_some hf
              have hid : s.step_id ∈ (updatePlanFailed plan s.step_id e.display).steps.map
                  AgentStep.step_id := by
                simp only [updatePlanFailed]
                rw [updateFirst_map_step_id (fun s1 => s1.step_id == s.step_id)
                  (fun s1 => { s1 with status := .failed, error_reason := some e.display })
                  (fun x => rfl)]
                exact List.mem_map.mpr ⟨s, hsmem, rfl⟩
              obtain ⟨s', hs'mem, hs'id⟩ := List.mem_map.mp hid
              refine ⟨s', hs'mem, ?_⟩
              have hstat : ((st.set_step_status s.step_id .executing).set_step_status
                  s.step_id .failed).step_status
                    = (st.set_step_status s.step_id .failed).step_status := by
                simp [set_step_status_collapse]
              unfold AgentState.get_step_status
              rw [hstat, hs'id]
              unfold AgentState.set_step_status
              simp [lookupA_insertA_self]

/-- C2: for every plan, state and executor behaviour, the execution loop
selects the first step whose recorded status is Pending or absent; when the
executor succeeds it marks that step `Done` (in the state map and in the
plan), stores the result and continues; when the executor fails it marks the
step `Failed`, stores the rendered diagnostic in the plan step and returns
immediately so that no further step runs; and with fuel at least the number
of runnable steps the loop ends in a state with no runnable step unless it
aborted on a failure. -/
theorem run_loop_spec (exec : AgentStep → Except AgentError StepResult)
    (fuel : Nat) (plan : AgentPlan) (st : AgentState) :
    (findPending st plan.steps = none → run_loop exec (fuel + 1) plan st = (plan, st))
    ∧ (∀ s out, findPending st plan.steps = some s → exec (mkTempStep s) = .ok out →
        run_loop exec (fuel + 1) plan st
          = run_loop exec fuel (updatePlanDone plan s.step_id)
              (((st.set_step_status s.step_id .executing).set_step_status
                  s.step_id .done).append_result s.step_id out))
    ∧ (∀ s e, findPending st plan.steps = some s → exec (mkTempStep s) = .error e →
        run_loop exec (fuel + 1) plan st
          = (updatePlanFailed plan s.step_id e.display,
             (st.set_step_status s.step_id .executing).set_step_status s.step_id .failed))
    ∧ (pendingCount st plan.steps ≤ fuel →
        (findPending (run_loop exec fuel plan st).2 (run_loop exec fuel plan st).1.steps
            = none
          ∨ ∃ s ∈ (run_loop exec fuel plan st).1.steps,
              (run_loop exec fuel plan st).2.get_step_status s.step_id = some .failed)) := by
  refine ⟨?_, ?_, ?_, run_loop_reaches_exit exec fuel plan st⟩
  · intro h
    simp only [run_loop, h]
  · intro s out hf hex
    simp only [run_loop, hf, hex]
  · intro s e hf hex
    simp only [run_loop, hf, hex]

/-- Witness for C2 on the two-step plan `planTwo` with the stub executor
(success on step 1, failure on step 2): halting when nothing is runnable,
the success transition, the failure abort, and loop exit. -/
theorem run_loop_spec_witness :
    run_loop execStub 1 planTwo stateDone = (planTwo, stateDone)
    ∧ run_loop execStub 2 planTwo stateEmpty
      = run_loop execStub 1 (updatePlanDone planTwo 1)
          (((stateEmpty.set_step_status 1 .executing).set_step_status 1 .done).append_result
            1 ⟨"r1", true⟩)
    ∧ run_loop execStub 1 planTwo stateOneDone
      = (updatePlanFailed planTwo 2 (AgentError.executionError "boom").display,
         (stateOneDone.set_step_status 2 .executing).set_step_status 2 .failed)
    ∧ (findPending (run_loop execStub 0 planTwo stateDone).2
          (run_loop execStub 0 planTwo stateDone).1.steps = none
        ∨ ∃ s ∈ (run_loop execStub 0 planTwo stateDone).1.steps,
            (run_loop execStub 0 planTwo stateDone).2.get_step_status s.step_id
              = some .failed) :=
  ⟨(run_loop_spec execStub 0 planTwo stateDone).1 rfl,
   (run_loop_spec execStub 1 planTwo stateEmpty).2.1 (mkStep 1 "call_tool") ⟨"r1", true⟩
     rfl rfl,
   (run_loop_spec execStub 0 planTwo stateOneDone).2.2.1 (mkStep 2 "call_tool")
     (.executionError "boom") rfl rfl,
   (run_loop_spec execStub 0 planTwo stateDone).2.2.2 (by decide)⟩

/-! ## One-collection invariant (claim C6) -/

theorem setBand_in_progress (q : TaskQueue) (pr : Priority) (l : List Task) :
    (q.setBand pr l).in_progress = q.in_progress := by
  cases pr <;> rfl

theorem setBand_completed (q : TaskQueue) (pr : Priority) (l : List Task) :
    (q.setBand pr l).completed = q.completed := by
  cases pr <;> rfl

theorem setBand_failed (q : TaskQueue) (pr : Priority) (l : List Task) :
    (q.setBand pr l).failed = q.failed := by
  cases pr <;> rfl

theorem enqueue_in_progress (q : TaskQueue) (t : Task) :
    (q.enqueue t).in_progress = q.in_progress := by
  unfold TaskQueue.enqueue
  by_cases hd : t.dependencies.isEmpty = true
  · rw [if_pos hd, setBand_in_progress]
  · rw [if_neg hd, setBand_in_progress]

theorem allIds_enqueue (q : TaskQueue) (t : Task) :
    (q.enqueue t).allIds.Perm (t.id :: q.allIds) := by
  have key : ∀ (q1 : TaskQueue), q1.critical = q.critical → q1.high = q.high →
      q1.normal = q.normal → q1.low = q.low → q1.in_progress = q.in_progress →
      q1.completed = q.completed → q1.failed = q.failed →
      (q1.setBand t.priority (q1.band t.priority ++ [t])).allIds.Perm (t.id :: q.allIds) := by
    intro q1 h1 h2 h3 h4 h5 h6 h7
    cases hp : t.priority
    · have e1 : (q1.setBand .low (q1.band .low ++ [t])).allIds
          = (q.critical.map Task.id ++ (q.high.map Task.id ++ (q.normal.map Task.id
              ++ q.low.map Task.id)))
            ++ t.id :: (q.in_progress.map Prod.fst
              ++ (q.completed.map Task.id ++ q.failed.map Task.id)) := by
        simp [TaskQueue.setBand, TaskQueue.band, TaskQueue.allIds, TaskQueue.pendingAll,
          h1, h2, h3, h4, h5, h6, h7, List.append_assoc]
      have e2 : (q.critical.map Task.id ++ (q.high.map Task.id ++ (q.normal.map Task.id
            ++ q.low.map Task.id)))
          ++ (q.in_progress.map Prod.fst
            ++ (q.completed.map Task.id ++ q.failed.map Task.id)) = q.allIds := by
        simp [TaskQueue.allIds, TaskQueue.pendingAll, List.append_assoc]
      rw [e1, ← e2]
      exact List.perm_middle
    · have e1 : (q1.setBand .normal (q1.band .normal ++ [t])).allIds
          = (q.critical.map Task.id ++ (q.high.map Task.id ++ q.normal.map Task.id))
            ++ t.id :: (q.low.map Task.id ++ (q.in_progress.map Prod.fst
              ++ (q.completed.map Task.id ++ q.failed.map Task.id))) := by
        simp [TaskQueue.setBand, TaskQueue.band, TaskQueue.allIds, TaskQueue.pendingAll,
          h1, h2, h3, h4, h5, h6, h7, List.append_assoc]
      have e2 : (q.critical.map Task.id ++ (q.high.map Task.id ++ q.normal.map Task.id))
          ++ (q.low.map Task.id ++ (q.in_progress.map Prod.fst
            ++ (q.completed.map Task.id ++ q.failed.map Task.id))) = q.allIds := by
        simp [TaskQueue.allIds, TaskQueue.pendingAll, List.append_assoc]
      rw [e1, ← e2]
      exact List.perm_middle
    · have e1 : (q1.setBand .high (q1.band .high ++ [t])).allIds
          = (q.critical.map Task.id ++ q.high.map Task.id)
            ++ t.id :: (q.normal.map Task.id ++ (q.low.map Task.id
              ++ (q.in_progress.map Prod.fst
                ++ (q.completed.map Task.id ++ q.failed.map Task.id)))) := by
        simp [TaskQueue.setBand, TaskQueue.band, TaskQueue.allIds, TaskQueue.pendingAll,
          h1, h2, h3, h4, h5, h6, h7, List.append_assoc]
      have e2 : (q.critical.map Task.id ++ q.high.map Task.id)
          ++ (q.normal.map Task.id ++ (q.low.map Task.id
            ++ (q.in_progress.map Prod.fst
              ++ (q.completed.map Task.id ++ q.failed.map Task.id)))) = q.allIds := by
        simp [TaskQueue.allIds, TaskQueue.pendingAll, List.append_assoc]
      rw [e1, ← e2]
      exact List.perm_middle
    · have e1 : (q1.setBand .critical (q1.band .critical ++ [t])).allIds
          = q.critical.map Task.id
            ++ t.id :: (q.high.map Task.id ++ (q.normal.map Task.id ++ (q.low.map Task.id
              ++ (q.in_progress.map Prod.fst
                ++ (q.completed.map Task.id ++ q.failed.map Task.id))))) := by
        simp [TaskQueue.setBand, TaskQueue.band, TaskQueue.allIds, TaskQueue.pendingAll,
          h1, h2, h3, h4, h5, h6, h7, List.append_assoc]
      have e2 : q.critical.map Task.id
          ++ (q.high.map Task.id ++ (q.normal.map Task.id ++ (q.low.map Task.id
            ++ (q.in_progress.map Prod.fst
              ++ (q.completed.map Task.id ++ q.failed.map Task.id))))) = q.allIds := by
        simp [TaskQueue.allIds, TaskQueue.pendingAll, List.append_assoc]
      rw [e1, ← e2]
      exact List.perm_middle
  unfold TaskQueue.enqueue
  by_cases hd : t.dependencies.isEmpty = true
  · rw [if_pos hd]
    exact key q rfl rfl rfl rfl rfl rfl rfl
  · rw [if_neg hd]
    exact key _ rfl rfl rfl rfl rfl rfl rfl

theorem inv_enqueue (q : TaskQueue) (t : Task) (h : q.Inv) (hfresh : t.id ∉ q.allIds) :
    (q.enqueue t).Inv := by
  constructor
  · exact ((allIds_enqueue q t).nodup_iff).mpr (List.nodup_cons.mpr ⟨hfresh, h.1⟩)
  · intro p hp
    rw [enqueue_in_progress] at hp
    exact h.2 p hp

theorem dequeueMark_char (q : TaskQueue) (now : Int) (h : q.Inv) :
    (applyOp q (.dequeueMark now)).allIds.Perm q.allIds
    ∧ (applyOp q (.dequeueMark now)).KeysMatch := by
  obtain ⟨k1, k2, k3, k4, k5, k6⟩ := dequeue_char q
  rcases hdq : q.dequeue with ⟨o, q'⟩
  rw [hdq] at k1 k2 k3 k4 k5 k6
  cases o with
  | none =>
      simp only [applyOp, hdq]
      exact ⟨List.Perm.refl _, h.2⟩
  | some t =>
      simp only at k1 k2 k3 k4 k5 k6
      have hfind := k1.symm
      have hperm0 := perm_of_find?_some hfind
      have hpendperm : q.pendingAll.Perm (t :: q'.pendingAll) := by
        rw [k2]
        exact hperm0
      have htmem : t ∈ q.pendingAll := List.mem_of_find?_eq_some hfind
      have htid : t.id ∈ q.pendingAll.map Task.id := List.mem_map.mpr ⟨t, htmem, rfl⟩
      have hfresh : containsKeyA q'.in_progress t.id = false := by
        rw [k3]
        cases hck : containsKeyA q.in_progress t.id
        · rfl
        · have hkmem := (containsKeyA_iff_mem _ _).mp hck
          have hnd := h.1
          unfold TaskQueue.allIds at hnd
          have hnd1 : (q.pendingAll.map Task.id ++ q.in_progress.map Prod.fst).Nodup :=
            (hnd.of_append_left).of_append_left
          exact ((List.nodup_append.mp hnd1).2.2 htid hkmem).elim
      have happ : applyOp q (.dequeueMark now) = q'.mark_in_progress t now := by
        simp only [applyOp, hdq]
      rw [happ]
      have hins : insertA q'.in_progress (t.update_status .inProgress now).id
          (t.update_status .inProgress now)
            = q'.in_progress ++ [(t.id, t.update_status .inProgress now)] :=
        insertA_of_not_contains _ hfresh
      have eA : (q'.mark_in_progress t now).allIds
          = q'.pendingAll.map Task.id ++ (q'.in_progress.map Prod.fst ++ [t.id])
            ++ q'.completed.map Task.id ++ q'.failed.map Task.id := by
        simp [TaskQueue.mark_in_progress, TaskQueue.allIds, TaskQueue.pendingAll, hins]
      have h1 : (q'.mark_in_progress t now).allIds.Perm
          (t.id :: (q'.pendingAll.map Task.id ++ q'.in_progress.map Prod.fst
            ++ q'.completed.map Task.id ++ q'.failed.map Task.id)) := by
        rw [eA]
        have e1 : q'.pendingAll.map Task.id ++ (q'.in_progress.map Prod.fst ++ [t.id])
            ++ q'.completed.map Task.id ++ q'.failed.map Task.id
            = (q'.pendingAll.map Task.id ++ q'.in_progress.map Prod.fst)
              ++ t.id :: (q'.completed.map Task.id ++ q'.failed.map Task.id) := by
          simp [List.append_assoc]
        rw [e1]
        refine List.perm_middle.trans ?_
        have e2 : (q'.pendingAll.map Task.id ++ q'.in_progress.map Prod.fst)
            ++ (q'.completed.map Task.id ++ q'.failed.map Task.id)
            = q'.pendingAll.map Task.id ++ q'.in_progress.map Prod.fst
              ++ q'.completed.map Task.id ++ q'.failed.map Task.id := by
          simp [List.append_assoc]
        rw [e2]
      have hmap : (q.pendingAll.map Task.id).Perm (t.id :: q'.pendingAll.map Task.id) := by
        have := hpendperm.map Task.id
        simpa using this
      have h2 : q.allIds.Perm
          (t.id :: (q'.pendingAll.map Task.id ++ q'.in_progress.map Prod.fst
            ++ q'.completed.map Task.id ++ q'.failed.map Task.id)) := by
        unfold TaskQueue.allIds
        rw [← k3, ← k4, ← k5]
        have hstep := ((hmap.append_right (q'.in_progress.map Prod.fst)).append_right
          (q'.completed.map Task.id)).append_right (q'.failed.map Task.id)
        refine hstep.trans ?_
        have e3 : (t.id :: q'.pendingAll.map Task.id) ++ q'.in_progress.map Prod.fst
            ++ q'.completed.map Task.id ++ q'.failed.map Task.id
            = t.id :: (q'.pendingAll.map Task.id ++ q'.in_progress.map Prod.fst
              ++ q'.completed.map Task.id ++ q'.failed.map Task.id) := by
          simp
        rw [e3]
      refine ⟨h1.trans h2.symm, ?_⟩
      intro p hp
      have hp2 : p ∈ q'.in_progress ++ [(t.id, t.update_status .inProgress now)] := by
        simpa [TaskQueue.mark_in_progress, hins] using hp
      rcases List.mem_append.mp hp2 with hmem | hmem
      · rw [k3] at hmem
        exact h.2 p hmem
      · simp only [List.mem_singleton] at hmem
        subst hmem
        rfl

theorem completeOp_char (q : TaskQueue) (tid : String) (now : Int) (h : q.Inv) :
    (applyOp q (.completeOp tid now)).allIds.Perm q.allIds
    ∧ (applyOp q (.completeOp tid now)).KeysMatch := by
  rcases hrm : removeA q.in_progress tid with ⟨o, rest⟩
  cases o with
  | none =>
      have happ : applyOp q (.completeOp tid now) = q := by
        simp only [applyOp, TaskQueue.mark_completed, hrm]
      rw [happ]
      exact ⟨List.Perm.refl _, h.2⟩
  | some tsk =>
      have hpermKV : q.in_progress.Perm ((tid, tsk) :: rest) := removeA_some_perm hrm
      have hmemKV : (tid, tsk) ∈ q.in_progress :=
        hpermKV.mem_iff.mpr (List.mem_cons_self _ _)
      have htid : tid = tsk.id := h.2 _ hmemKV
      have hkeys : (q.in_progress.map Prod.fst).Perm (tid :: rest.map Prod.fst) := by
        have := hpermKV.map Prod.fst
        simpa using this
      have happ : applyOp q (.completeOp tid now)
          = { q with
                in_progress := rest,
                completed := q.completed ++ [Task.update_status tsk TaskStatus.completed now],
                dependencies := (removeA q.dependencies tid).2 } := by
        simp only [applyOp, TaskQueue.mark_completed, hrm]
      rw [happ]
      constructor
      · have eA : ({ q with
              in_progress := rest,
              completed := q.completed ++ [Task.update_status tsk TaskStatus.completed now],
              dependencies := (removeA q.dependencies tid).2 } : TaskQueue).allIds
            = (q.pendingAll.map Task.id ++ rest.map Prod.fst ++ q.completed.map Task.id)
              ++ tid :: q.failed.map Task.id := by
          rw [htid]
          simp [TaskQueue.allIds, TaskQueue.pendingAll, Task.update_status,
            List.append_assoc]
        rw [eA]
        refine List.perm_middle.trans ?_
        have h2 : q.allIds.Perm
            (tid :: (q.pendingAll.map Task.id ++ rest.map Prod.fst
              ++ q.completed.map Task.id ++ q.failed.map Task.id)) := by
          unfold TaskQueue.allIds
          have hstep := ((hkeys.append_left (q.pendingAll.map Task.id)).append_right
            (q.completed.map Task.id)).append_right (q.failed.map Task.id)
          refine hstep.trans ?_
          have e1 : q.pendingAll.map Task.id ++ (tid :: rest.map Prod.fst)
              ++ q.completed.map Task.id ++ q.failed.map Task.id
              = q.pendingAll.map Task.id
                ++ tid :: (rest.map Prod.fst ++ q.completed.map Task.id
                  ++ q.failed.map Task.id) := by
            simp [List.append_assoc]
          rw [e1]
          refine List.perm_middle.trans ?_
          have e2 : q.pendingAll.map Task.id ++ (rest.map Prod.fst
              ++ q.completed.map Task.id ++ q.failed.map Task.id)
              = q.pendingAll.map Task.id ++ rest.map Prod.fst
                ++ q.completed.map Task.id ++ q.failed.map Task.id := by
            simp [List.append_assoc]
          rw [e2]
        refine List.Perm.trans ?_ h2.symm
        have e3 : (q.pendingAll.map Task.id ++ rest.map Prod.fst ++ q.completed.map Task.id)
            ++ q.failed.map Task.id
            = q.pendingAll.map Task.id ++ rest.map Prod.fst
              ++ q.completed.map Task.id ++ q.failed.map Task.id := by
          simp [List.append_assoc]
        rw [e3]
      · intro p hp
        have hp2 : p ∈ q.in_progress :=
          hpermKV.mem_iff.mpr (List.mem_cons_of_mem _ hp)
        exact h.2 p hp2

theorem failOp_char (q : TaskQueue) (tid reason : String) (now : Int) (h : q.Inv) :
    (applyOp q (.failOp tid reason now)).allIds.Perm q.allIds
    ∧ (applyOp q (.failOp tid reason now)).KeysMatch := by
  rcases hrm : removeA q.in_progress tid with ⟨o, rest⟩
  cases o with
  | none =>
      have happ : applyOp q (.failOp tid reason now) = q := by
        simp only [applyOp, TaskQueue.mark_failed, hrm]
      rw [happ]
      exact ⟨List.Perm.refl _, h.2⟩
  | some tsk =>
      have hpermKV : q.in_progress.Perm ((tid, tsk) :: rest) := removeA_some_perm hrm
      have hmemKV : (tid, tsk) ∈ q.in_progress :=
        hpermKV.mem_iff.mpr (List.mem_cons_self _ _)
      have htid : tid = tsk.id := h.2 _ hmemKV
      have hkeys : (q.in_progress.map Prod.fst).Perm (tid :: rest.map Prod.fst) := by
        have := hpermKV.map Prod.fst
        simpa using this
      have happ : applyOp q (.failOp tid reason now)
          = { q with
                in_progress := rest,
                failed := q.failed ++ [Task.update_status tsk (TaskStatus.failed reason) now] } := by
        simp only [applyOp, TaskQueue.mark_failed, hrm]
      rw [happ]
      constructor
      · have eA : ({ q with
              in_progress := rest,
              failed := q.failed ++ [Task.update_status tsk (TaskStatus.failed reason) now] }
                : TaskQueue).allIds
            = (q.pendingAll.map Task.id ++ rest.map Prod.fst ++ q.completed.map Task.id
              ++ q.failed.map Task.id) ++ tid :: [] := by
          rw [htid]
          simp [TaskQueue.allIds, TaskQueue.pendingAll, Task.update_status,
            List.append_assoc]
        rw [eA]
        refine List.perm_middle.trans ?_
        have h2 : q.allIds.Perm
            (tid :: (q.pendingAll.map Task.id ++ rest.map Prod.fst
              ++ q.completed.map Task.id ++ q.failed.map Task.id)) := by
          unfold TaskQueue.allIds
          have hstep := ((hkeys.append_left (q.pendingAll.map Task.id)).append_right
            (q.completed.map Task.id)).append_right (q.failed.map Task.id)
          refine hstep.trans ?_
          have e1 : q.pendingAll.map Task.id ++ (tid :: rest.map Prod.fst)
              ++ q.completed.map Task.id ++ q.failed.map Task.id
              = q.pendingAll.map Task.id
                ++ tid :: (rest.map Prod.fst ++ q.completed.map Task.id
                  ++ q.failed.map Task.id) := by
            simp [List.append_assoc]
          rw [e1]
          refine List.perm_middle.trans ?_
          have e2 : q.pendingAll.map Task.id ++ (rest.map Prod.fst
              ++ q.completed.map Task.id ++ q.failed.map Task.id)
              = q.pendingAll.map Task.id ++ rest.map Prod.fst
                ++ q.completed.map Task.id ++ q.failed.map Task.id := by
            simp [List.append_assoc]
          rw [e2]
        refine List.Perm.trans ?_ h2.symm
        have e3 : (q.pendingAll.map Task.id ++ rest.map Prod.fst ++ q.completed.map Task.id
            ++ q.failed.map Task.id) ++ [] = q.pendingAll.map Task.id ++ rest.map Prod.fst
              ++ q.completed.map Task.id ++ q.failed.map Task.id := by
          simp
        rw [e3]
      · intro p hp
        have hp2 : p ∈ q.in_progress :=
          hpermKV.mem_iff.mpr (List.mem_cons_of_mem _ hp)
        exact h.2 p hp2

theorem inv_cleanup (q : TaskQueue) (now : Int) (h : q.Inv) :
    (applyOp q (.cleanupOp now)).Inv := by
  constructor
  · have hP : (((q.cleanup_expired now).2.pendingAll).map Task.id).Sublist
        (q.pendingAll.map Task.id) := by
      refine List.Sublist.map _ ?_
      simp only [TaskQueue.cleanup_expired, TaskQueue.pendingAll]
      exact List.Sublist.append (List.Sublist.append (List.Sublist.append
        (List.filter_sublist _) (List.filter_sublist _)) (List.filter_sublist _))
        (List.filter_sublist _)
    have hsub : (applyOp q (.cleanupOp now)).allIds.Sublist q.allIds := by
      simp only [applyOp]
      unfold TaskQueue.allIds
      exact List.Sublist.append (List.Sublist.append (List.Sublist.append hP
        (List.Sublist.refl _)) (List.Sublist.refl _)) (List.Sublist.refl _)
    exact h.1.sublist hsub
  · intro p hp
    exact h.2 p hp

theorem inv_applyOp (q : TaskQueue) (op : QueueOp) (h : q.Inv) (hv : validOp q op) :
    (applyOp q op).Inv := by
  cases op with
  | enqueueOp t => exact inv_enqueue q t h hv
  | dequeueMark now =>
      obtain ⟨hperm, hkm⟩ := dequeueMark_char q now h
      exact ⟨hperm.nodup_iff.mpr h.1, hkm⟩
  | completeOp tid now =>
      obtain ⟨hperm, hkm⟩ := completeOp_char q tid now h
      exact ⟨hperm.nodup_iff.mpr h.1, hkm⟩
  | failOp tid reason now =>
      obtain ⟨hperm, hkm⟩ := failOp_char q tid reason now h
      exact ⟨hperm.nodup_iff.mpr h.1, hkm⟩
  | cleanupOp now => exact inv_cleanup q now h

/-- C6 (amended): along every disciplined operation sequence — enqueues use
fresh ids, and a dequeued task is immediately marked in progress — a queue
satisfying the one-collection invariant keeps satisfying it: no task id ever
appears in two of {pending bands, in-progress map, completed archive, failed
archive} and none is duplicated.  Moreover no id is lost except by explicit
removal: enqueue adds exactly the new id, and dispatching, completing or
failing a task permutes the recorded id multiset (cleanup alone removes
expired pending ids). -/
theorem task_ids_one_collection :
    (∀ (q : TaskQueue) (ops : List QueueOp), q.Inv → ValidSeq q ops →
        (ops.foldl applyOp q).Inv)
    ∧ (∀ (q : TaskQueue) (t : Task), (q.enqueue t).allIds.Perm (t.id :: q.allIds))
    ∧ (∀ (q : TaskQueue) (now : Int), q.Inv →
        (applyOp q (.dequeueMark now)).allIds.Perm q.allIds)
    ∧ (∀ (q : TaskQueue) (tid : String) (now : Int), q.Inv →
        (applyOp q (.completeOp tid now)).allIds.Perm q.allIds)
    ∧ (∀ (q : TaskQueue) (tid reason : String) (now : Int), q.Inv →
        (applyOp q (.failOp tid reason now)).allIds.Perm q.allIds) := by
  refine ⟨?_, allIds_enqueue, fun q now h => (dequeueMark_char q now h).1,
    fun q tid now h => (completeOp_char q tid now h).1,
    fun q tid reason now h => (failOp_char q tid reason now h).1⟩
  intro q ops
  induction ops generalizing q with
  | nil =>
      intro h _
      exact h
  | cons op rest ih =>
      intro h hv
      exact ih (applyOp q op) (inv_applyOp q op h hv.1) hv.2

/-- Witness for C6: the invariant holds along the concrete disciplined run
`opsW` from the empty queue, and a concrete dispatch preserves the id
multiset. -/
theorem task_ids_one_collection_witness :
    TaskQueue.new.Inv ∧ ValidSeq TaskQueue.new opsW
    ∧ (opsW.foldl applyOp TaskQueue.new).Inv
    ∧ (applyOp queueReadyA (.dequeueMark 3)).allIds.Perm queueReadyA.allIds :=
  ⟨by decide, by decide,
   (task_ids_one_collection).1 TaskQueue.new opsW (by decide) (by decide),
   (task_ids_one_collection).2.2.1 queueReadyA 3 (by decide)⟩

end Rusagent
